import Mathlib

/-!
Shallow embedding of the redid EDID encoder (mripard/redid).

Conventions used throughout:
* Byte vectors (`Vec<u8>`) are `List Nat`; every value pushed mirrors the
  corresponding Rust expression, with an explicit `% 256` wherever a `u8`
  operation can wrap (shifts, multiplications).
* Rust panics (`assert!`, `expect`, `unimplemented!`, fallible `try_from`
  conversions inside encoders) are modelled by `Option`: an encoder returns
  `none` exactly on the inputs where the Rust code would panic.
* C-like enums that the encoder only uses through their `as u8` discriminant
  (`EdidR4DescriptorEstablishedTimingsIII`, the CTA-861 audio sampling
  enums, VICs) are carried as their `Nat` discriminant; the corresponding
  range restriction that the Rust type system provides is part of the
  validity predicates.
* The few `f32`-valued fields (gamma, chromaticity coordinates, aspect
  values of `EdidR4ImageSize`) are represented by the rounded integer the
  encoder derives from them (`round(gamma·100)`, `round(v·1024)`, ...); the
  smart-constructor range checks on the float translate to ranges on that
  integer.
-/

namespace Redid

set_option maxRecDepth 16384

/-- `Vec::resize(n, v)`: truncate to `n` elements or pad with `v`. -/
def listResize (l : List Nat) (n : Nat) (v : Nat) : List Nat :=
  if n ≤ l.length then l.take n else l ++ List.replicate (n - l.length) v

/-- The wrapping byte sum `sum = sum.wrapping_add(*byte)` loop used by both
checksum computations (`Edid::into_bytes` and
`EdidExtensionCTA861Revision3::into_bytes`). -/
def wrapSum (l : List Nat) : Nat :=
  l.foldl (fun s b => (s + b) % 256) 0

/-- `0u8.wrapping_sub(sum)`: the checksum byte appended to a 127-byte block. -/
def checksum (l : List Nat) : Nat :=
  (256 - wrapSum l) % 256

/-- The Rust loop `for x in l { if f x = none then panic }` collecting each
encoder's bytes: any failure aborts the whole encoding. -/
def encodeAll (f : α → Option (List Nat)) : List α → Option (List (List Nat))
  | [] => some []
  | x :: xs =>
    match f x, encodeAll f xs with
    | some b, some rest => some (b :: rest)
    | _, _ => none

/-! ### Descriptor layer (redid/src/descriptors.rs) -/

/-- `EdidDescriptorCustom`: tag (validated `≤ 0x0f`) and payload
(validated `≤ 13` bytes). -/
structure EdidDescriptorCustom where
  tag : Nat
  payload : List Nat
deriving DecidableEq, Repr

def EdidDescriptorCustom.valid (c : EdidDescriptorCustom) : Bool :=
  c.tag ≤ 0x0f && c.payload.length ≤ 13 && c.payload.all (· ≤ 255)

/-- `EdidDescriptorCustom::into_bytes`: 5-byte header then payload,
resized to 18 bytes with zero padding. -/
def EdidDescriptorCustom.intoBytes (c : EdidDescriptorCustom) : List Nat :=
  listResize ([0, 0, 0, c.tag, 0] ++ c.payload) 18 0

/-- `EdidDescriptorString`: the `String` is carried as its list of Unicode
scalar values. `TryFrom<String>` demands ASCII and length `≤ 13`. -/
structure EdidDescriptorString where
  chars : List Nat
deriving DecidableEq, Repr

def EdidDescriptorString.valid (s : EdidDescriptorString) : Bool :=
  s.chars.all (· ≤ 0x7f) && s.chars.length ≤ 13

/-- `EdidDescriptorString::into_bytes`: ISO-8859-1 strict encoding (fails on
code points above `0xff`, which the surrounding `expect` turns into a
panic), then a `0x0a` terminator when shorter than 13 bytes, then resize to
13 bytes padding with `0x20`. -/
def EdidDescriptorString.intoBytes (s : EdidDescriptorString) : Option (List Nat) :=
  if s.chars.all (· ≤ 0xff) then
    let b := if s.chars.length < 13 then s.chars ++ [0x0a] else s.chars
    some (listResize b 13 0x20)
  else
    none

/-- `EdidDetailedTimingAnalogSync` (serrations, sync-on-rgb). -/
inductive EdidDetailedTimingAnalogSync
  | bipolarComposite (serrations syncOnRgb : Bool)
  | composite (serrations syncOnRgb : Bool)
deriving DecidableEq, Repr

structure EdidDetailedTimingDigitalCompositeSync where
  serrations : Bool
deriving DecidableEq, Repr

structure EdidDetailedTimingDigitalSeparateSync where
  vsyncPositive : Bool
deriving DecidableEq, Repr

inductive EdidDetailedTimingDigitalSyncKind
  | composite (v : EdidDetailedTimingDigitalCompositeSync)
  | separate (v : EdidDetailedTimingDigitalSeparateSync)
deriving DecidableEq, Repr

structure EdidDetailedTimingDigitalSync where
  kind : EdidDetailedTimingDigitalSyncKind
  hsyncPositive : Bool
deriving DecidableEq, Repr

inductive EdidDetailedTimingSync
  | analog (s : EdidDetailedTimingAnalogSync)
  | digital (s : EdidDetailedTimingDigitalSync)
deriving DecidableEq, Repr

inductive EdidDetailedTimingStereo
  | none
  | fieldSequentialRightOnSync
  | fieldSequentialLeftOnSync
  | twoWayInterleavedRightOnEven
  | twoWayInterleavedLeftOnEven
  | fourWayInterleaved
  | sideBySideInterleaved
deriving DecidableEq, Repr

/-- `EdidDescriptorDetailedTimingHorizontal`: 12-bit active, 10-bit front
porch, 10-bit sync pulse, 12-bit back porch, 8-bit border, 12-bit size. -/
structure EdidDescriptorDetailedTimingHorizontal where
  active : Nat
  frontPorch : Nat
  syncPulse : Nat
  backPorch : Nat
  border : Nat
  sizeMm : Nat
deriving DecidableEq, Repr

def EdidDescriptorDetailedTimingHorizontal.valid
    (h : EdidDescriptorDetailedTimingHorizontal) : Bool :=
  h.active ≤ 4095 && h.frontPorch ≤ 1023 && h.syncPulse ≤ 1023 &&
    h.backPorch ≤ 4095 && h.border ≤ 255 && h.sizeMm ≤ 4095

/-- `EdidDescriptorDetailedTimingVertical`: 12-bit active, 6-bit front
porch, 6-bit sync pulse, 12-bit back porch, 8-bit border, 12-bit size. -/
structure EdidDescriptorDetailedTimingVertical where
  active : Nat
  frontPorch : Nat
  syncPulse : Nat
  backPorch : Nat
  border : Nat
  sizeMm : Nat
deriving DecidableEq, Repr

def EdidDescriptorDetailedTimingVertical.valid
    (v : EdidDescriptorDetailedTimingVertical) : Bool :=
  v.active ≤ 4095 && v.frontPorch ≤ 63 && v.syncPulse ≤ 63 &&
    v.backPorch ≤ 4095 && v.border ≤ 255 && v.sizeMm ≤ 4095

structure EdidDescriptorDetailedTiming where
  pixelClock : Nat
  horizontal : EdidDescriptorDetailedTimingHorizontal
  vertical : EdidDescriptorDetailedTimingVertical
  interlace : Bool
  syncType : EdidDetailedTimingSync
  stereo : EdidDetailedTimingStereo
deriving DecidableEq, Repr

def EdidDescriptorDetailedTiming.valid (d : EdidDescriptorDetailedTiming) : Bool :=
  10 ≤ d.pixelClock && d.pixelClock ≤ 655350 && d.horizontal.valid && d.vertical.valid

/-- The byte-17 flags of a detailed timing (interlace, stereo, sync type).
The bit groups are disjoint, mirroring the successive `flags |=` in the
source. -/
def EdidDescriptorDetailedTiming.flagsByte (d : EdidDescriptorDetailedTiming) : Nat :=
  (if d.interlace then 0x80 else 0) |||
    (match d.stereo with
      | .none => 0
      | .fieldSequentialRightOnSync => 0x20
      | .fieldSequentialLeftOnSync => 0x40
      | .twoWayInterleavedRightOnEven => 0x21
      | .twoWayInterleavedLeftOnEven => 0x41
      | .fourWayInterleaved => 0x60
      | .sideBySideInterleaved => 0x61) |||
    (match d.syncType with
      | .analog (.bipolarComposite serrations syncOnRgb) =>
        (0b01 <<< 3) ||| (if serrations then 1 <<< 2 else 0) |||
          (if syncOnRgb then 1 <<< 1 else 0)
      | .analog (.composite serrations syncOnRgb) =>
        (if serrations then 1 <<< 2 else 0) ||| (if syncOnRgb then 1 <<< 1 else 0)
      | .digital s =>
        (match s.kind with
          | .separate v => (0b11 <<< 3) ||| (if v.vsyncPositive then 1 <<< 2 else 0)
          | .composite v => (0b10 <<< 3) ||| (if v.serrations then 1 <<< 2 else 0)) |||
          (if s.hsyncPositive then 1 <<< 1 else 0))

/-- `EdidDescriptorDetailedTiming::into_bytes` (redid/src/descriptors.rs).
The `expect`ed 10, 12 and 6 bit refits of the derived sync offset and blanking
values are the `none` branches; field packings follow the source bit for
bit (`x_hi << k | y` is written `x_hi * 2^k + y`, the operands being
masked exactly as in the source, hence disjoint). -/
def EdidDescriptorDetailedTiming.intoBytes
    (d : EdidDescriptorDetailedTiming) : Option (List Nat) :=
  let freq := d.pixelClock / 10
  if freq > 65535 then none else
  let hso := d.horizontal.border + d.horizontal.frontPorch
  if hso > 1023 then none else
  let hblank := hso + d.horizontal.syncPulse + d.horizontal.backPorch + d.horizontal.border
  if hblank > 4095 then none else
  let vso := d.vertical.border + d.vertical.frontPorch
  if vso > 63 then none else
  let vblank := vso + d.vertical.syncPulse + d.vertical.backPorch + d.vertical.border
  if vblank > 4095 then none else
  some [freq % 256,
        freq / 256 % 256,
        d.horizontal.active % 256,
        hblank % 256,
        (d.horizontal.active / 256 % 16) * 16 + hblank / 256 % 16,
        d.vertical.active % 256,
        vblank % 256,
        (d.vertical.active / 256 % 16) * 16 + vblank / 256 % 16,
        hso % 256,
        d.horizontal.syncPulse % 256,
        (vso % 16) * 16 + d.vertical.syncPulse % 16,
        (hso / 256 % 4) * 64 + (d.horizontal.syncPulse / 256 % 4) * 16 +
          (vso / 16 % 4) * 4 + d.vertical.syncPulse / 16 % 4,
        d.horizontal.sizeMm % 256,
        d.vertical.sizeMm % 256,
        (d.horizontal.sizeMm / 256 % 16) * 16 + d.vertical.sizeMm / 256 % 16,
        d.horizontal.border,
        d.vertical.border,
        d.flagsByte]

/-- `EdidDisplayRangeLimitsRangeFreq` (R3): a non-empty `Range` of non-zero
`u8` frequencies. -/
structure EdidDisplayRangeLimitsRangeFreq where
  start : Nat
  stop : Nat
deriving DecidableEq, Repr

def EdidDisplayRangeLimitsRangeFreq.valid (r : EdidDisplayRangeLimitsRangeFreq) : Bool :=
  1 ≤ r.start && 1 ≤ r.stop && r.start ≤ 255 && r.stop ≤ 255 && r.start < r.stop

/-- `EdidDisplayRangePixelClock::round`: `next_multiple_of(10)`. -/
def pixelClockRound (v : Nat) : Nat :=
  ((v + 9) / 10) * 10

/-- `EdidDisplayRangePixelClock::into_raw`: `u8::try_from(round / 10)`, the
`expect` failure being `none`. -/
def pixelClockIntoRaw (v : Nat) : Option Nat :=
  if pixelClockRound v / 10 ≤ 255 then some (pixelClockRound v / 10) else none

/-- `EdidDisplayRangeVideoTimingsGTF` (secondary GTF parameters). -/
structure EdidDisplayRangeVideoTimingsGTF where
  horizontalStartFrequency : Nat
  blankingOffset : Nat
  blankingGradient : Nat
  blankingScalingFactor : Nat
  blankingScalingFactorWeighting : Nat
deriving DecidableEq, Repr

def EdidDisplayRangeVideoTimingsGTF.valid (g : EdidDisplayRangeVideoTimingsGTF) : Bool :=
  1 ≤ g.horizontalStartFrequency && g.horizontalStartFrequency ≤ 510 &&
    g.blankingOffset ≤ 255 && g.blankingGradient ≤ 65535 &&
    g.blankingScalingFactor ≤ 255 && g.blankingScalingFactorWeighting ≤ 255

/-- The eight payload bytes of a secondary-GTF timings-support section
(`u8` products wrap, hence the `% 256`). -/
def EdidDisplayRangeVideoTimingsGTF.supportBytes
    (g : EdidDisplayRangeVideoTimingsGTF) : Option (List Nat) :=
  if g.horizontalStartFrequency / 2 ≤ 255 then
    some [0x02, 0x00, g.horizontalStartFrequency / 2, g.blankingOffset * 2 % 256,
          g.blankingGradient % 256, g.blankingGradient / 256 % 256,
          g.blankingScalingFactor, g.blankingScalingFactorWeighting * 2 % 256]
  else
    none

inductive EdidR3DisplayRangeVideoTimingsSupport
  | defaultGTF
  | secondaryGTF (g : EdidDisplayRangeVideoTimingsGTF)
deriving DecidableEq, Repr

def EdidR3DisplayRangeVideoTimingsSupport.valid :
    EdidR3DisplayRangeVideoTimingsSupport → Bool
  | .defaultGTF => true
  | .secondaryGTF g => g.valid

structure EdidR3DisplayRangeLimits where
  hfreqKhz : EdidDisplayRangeLimitsRangeFreq
  vfreqHz : EdidDisplayRangeLimitsRangeFreq
  maxPixelclockMhz : Nat
  timingsSupport : EdidR3DisplayRangeVideoTimingsSupport
deriving DecidableEq, Repr

def EdidR3DisplayRangeLimits.valid (d : EdidR3DisplayRangeLimits) : Bool :=
  d.hfreqKhz.valid && d.vfreqHz.valid &&
    1 ≤ d.maxPixelclockMhz && d.maxPixelclockMhz ≤ 2550 && d.timingsSupport.valid

/-- `EdidR3DisplayRangeLimits::into_bytes`: the 13-byte payload. -/
def EdidR3DisplayRangeLimits.intoBytes (d : EdidR3DisplayRangeLimits) : Option (List Nat) :=
  match pixelClockIntoRaw d.maxPixelclockMhz with
  | none => none
  | some pclk =>
    match
      (match d.timingsSupport with
        | .defaultGTF => some [0x00, 0x0a, 0x20, 0x20, 0x20, 0x20, 0x20, 0x20]
        | .secondaryGTF g => g.supportBytes) with
    | none => none
    | some support =>
      some ([d.vfreqHz.start, d.vfreqHz.stop, d.hfreqKhz.start, d.hfreqKhz.stop, pclk] ++
        support)

/-- `EdidR4DisplayRangeLimitsRangeFreq`: non-empty range of frequencies in
`1..=510`. -/
structure EdidR4DisplayRangeLimitsRangeFreq where
  start : Nat
  stop : Nat
deriving DecidableEq, Repr

def EdidR4DisplayRangeLimitsRangeFreq.valid (r : EdidR4DisplayRangeLimitsRangeFreq) : Bool :=
  1 ≤ r.start && 1 ≤ r.stop && r.start ≤ 510 && r.stop ≤ 510 && r.start < r.stop

/-- Aspect values of `EdidR4DisplayRangeVideoTimingsAspectRatio`, with the
`repr(u8)` discriminants `4:3 = 0`, `16:9 = 1`, `16:10 = 2`, `5:4 = 3`,
`15:9 = 4`. -/
inductive EdidR4DisplayRangeVideoTimingsAspect
  | aspect4x3
  | aspect16x9
  | aspect16x10
  | aspect5x4
  | aspect15x9
deriving DecidableEq, Repr

/-- The `as u8` discriminant of the aspect enum. -/
def EdidR4DisplayRangeVideoTimingsAspect.toRaw : EdidR4DisplayRangeVideoTimingsAspect → Nat
  | .aspect4x3 => 0
  | .aspect16x9 => 1
  | .aspect16x10 => 2
  | .aspect5x4 => 3
  | .aspect15x9 => 4

/-- `EdidR4DisplayRangeVideoTimingsCVTR1` (the CVT revision-1 payload). -/
structure EdidR4DisplayRangeVideoTimingsCVTR1 where
  maximumActivePixelsPerLine : Nat
  supportedAspects : List EdidR4DisplayRangeVideoTimingsAspect
  preferredAspect : EdidR4DisplayRangeVideoTimingsAspect
  standardCvtBlankingSupported : Bool
  reducedCvtBlankingSupported : Bool
  horizontalShrinkSupported : Bool
  horizontalStretchSupported : Bool
  verticalShrinkSupported : Bool
  verticalStretchSupported : Bool
  preferredVerticalRefreshRate : Nat
deriving DecidableEq, Repr

def EdidR4DisplayRangeVideoTimingsCVTR1.valid
    (c : EdidR4DisplayRangeVideoTimingsCVTR1) : Bool :=
  c.maximumActivePixelsPerLine ≤ 65535 &&
    1 ≤ c.preferredVerticalRefreshRate && c.preferredVerticalRefreshRate ≤ 255

/-- The supported-aspect bitmap byte of the CVT payload:
`byte |= 1 << (7 - (ratio as u8))` over the supported list. -/
def cvtSupportedAspectsByte (l : List EdidR4DisplayRangeVideoTimingsAspect) : Nat :=
  l.foldl (fun byte a => byte ||| (1 <<< (7 - a.toRaw))) 0

inductive EdidR4DisplayRangeVideoTimingsCVT
  | r1 (c : EdidR4DisplayRangeVideoTimingsCVTR1)
deriving DecidableEq, Repr

inductive EdidR4DisplayRangeVideoTimingsSupport
  | defaultGTF
  | rangeLimitsOnly
  | secondaryGTF (g : EdidDisplayRangeVideoTimingsGTF)
  | cvtSupported (v : EdidR4DisplayRangeVideoTimingsCVT)
deriving DecidableEq, Repr

def EdidR4DisplayRangeVideoTimingsSupport.valid :
    EdidR4DisplayRangeVideoTimingsSupport → Bool
  | .defaultGTF => true
  | .rangeLimitsOnly => true
  | .secondaryGTF g => g.valid
  | .cvtSupported (.r1 c) => c.valid

structure EdidR4DisplayRangeLimits where
  hfreqKhz : EdidR4DisplayRangeLimitsRangeFreq
  vfreqHz : EdidR4DisplayRangeLimitsRangeFreq
  maxPixelclockMhz : Nat
  timingsSupport : EdidR4DisplayRangeVideoTimingsSupport
deriving DecidableEq, Repr

def EdidR4DisplayRangeLimits.valid (d : EdidR4DisplayRangeLimits) : Bool :=
  d.hfreqKhz.valid && d.vfreqHz.valid &&
    1 ≤ d.maxPixelclockMhz && d.maxPixelclockMhz ≤ 2550 && d.timingsSupport.valid

/-- `EdidR4DisplayRangeVideoTimingsCVTPixelClockDiff`: difference between
the rounded pixel clock and the pixel clock, rejected at `10` and above
(the `expect` in the CVT encoder), then `into_raw` multiplies by 4. -/
def cvtPixelClockDiffRaw (maxPclk : Nat) : Option Nat :=
  let diff := pixelClockRound maxPclk - maxPclk
  if diff ≥ 10 then none else some (diff * 4)

/-- The flags byte of `EdidR4DisplayRangeLimits::into_bytes`, built from the
big-endian high bytes of the four frequencies. -/
def EdidR4DisplayRangeLimits.flagsByte (d : EdidR4DisplayRangeLimits) : Nat :=
  (if d.vfreqHz.stop / 256 > 0 then
    2 ||| (if d.vfreqHz.start / 256 > 0 then 1 else 0) else 0) |||
  (if d.hfreqKhz.stop / 256 > 0 then
    8 ||| (if d.hfreqKhz.start / 256 > 0 then 4 else 0) else 0)

/-- The eight timings-support bytes of `EdidR4DisplayRangeLimits`. -/
def EdidR4DisplayRangeLimits.supportBytes (d : EdidR4DisplayRangeLimits) : Option (List Nat) :=
  match d.timingsSupport with
  | .defaultGTF => some [0x00, 0x0a, 0x20, 0x20, 0x20, 0x20, 0x20, 0x20]
  | .rangeLimitsOnly => some [0x01, 0x0a, 0x20, 0x20, 0x20, 0x20, 0x20, 0x20]
  | .secondaryGTF g => g.supportBytes
  | .cvtSupported (.r1 cvt) =>
    match cvtPixelClockDiffRaw d.maxPixelclockMhz with
    | none => none
    | some pclkDiff =>
      let rawMaxPix := (cvt.maximumActivePixelsPerLine + 7) / 8
      some [0x04, 0x11,
            (pclkDiff * 4 % 256) ||| (rawMaxPix / 256 % 4),
            rawMaxPix % 256,
            cvtSupportedAspectsByte cvt.supportedAspects,
            (cvt.preferredAspect.toRaw * 32 % 256) |||
              (if cvt.reducedCvtBlankingSupported then 1 <<< 4 else 0) |||
              (if cvt.standardCvtBlankingSupported then 1 <<< 3 else 0),
            (if cvt.horizontalShrinkSupported then 1 <<< 7 else 0) |||
              (if cvt.horizontalStretchSupported then 1 <<< 6 else 0) |||
              (if cvt.verticalShrinkSupported then 1 <<< 5 else 0) |||
              (if cvt.verticalStretchSupported then 1 <<< 4 else 0),
            cvt.preferredVerticalRefreshRate]

/-- `EdidR4DisplayRangeLimits::into_bytes`: flags byte, low bytes of the
four frequencies, pixel clock, then the 8 support bytes (14 bytes). -/
def EdidR4DisplayRangeLimits.intoBytes (d : EdidR4DisplayRangeLimits) : Option (List Nat) :=
  match pixelClockIntoRaw d.maxPixelclockMhz, d.supportBytes with
  | some pclk, some support =>
    some ([d.flagsByte, d.vfreqHz.start % 256, d.vfreqHz.stop % 256,
           d.hfreqKhz.start % 256, d.hfreqKhz.stop % 256, pclk] ++ support)
  | _, _ => none

/-- `EdidR4DescriptorEstablishedTimings`: the Established Timings III list,
carried as the `repr(u8)` discriminants of
`EdidR4DescriptorEstablishedTimingsIII` (`0..=39` and `44..=47`). -/
structure EdidR4DescriptorEstablishedTimings where
  establishedTimings : List Nat
deriving DecidableEq, Repr

def EdidR4DescriptorEstablishedTimings.valid (e : EdidR4DescriptorEstablishedTimings) : Bool :=
  e.establishedTimings.all (fun id => id ≤ 39 || (44 ≤ id && id ≤ 47))

/-- The 6-byte bit array: `array[id / 8] |= 1 << (id % 8)`. -/
def etIIIArray (ids : List Nat) : List Nat :=
  ids.foldl (fun arr id => arr.set (id / 8) ((arr.getD (id / 8) 0) ||| (1 <<< (id % 8))))
    (List.replicate 6 0)

/-- `EdidR4DescriptorEstablishedTimings::into_bytes`: `0x0a`, the 6-byte bit
array, then 6 zero bytes; an out-of-range discriminant would index past the
6-byte Rust array (a panic), hence the guard. -/
def EdidR4DescriptorEstablishedTimings.intoBytes
    (e : EdidR4DescriptorEstablishedTimings) : Option (List Nat) :=
  if e.establishedTimings.all (· ≤ 47) then
    some (0x0a :: (etIIIArray e.establishedTimings ++ List.replicate 6 0))
  else
    none

/-- The constant 18-byte Dummy descriptor. -/
def dummyDescriptorBytes : List Nat :=
  [0, 0, 0, 0x10, 0, 0, 0, 0, 0, 0, 0, 0, 0, 0, 0, 0, 0, 0]

inductive EdidR3Descriptor
  | detailedTiming (dtd : EdidDescriptorDetailedTiming)
  | custom (c : EdidDescriptorCustom)
  | dummy
  | standardTimings
  | colorPointData
  | productName (v : EdidDescriptorString)
  | displayRangeLimits (d : EdidR3DisplayRangeLimits)
  | dataString (v : EdidDescriptorString)
  | productSerialNumber (v : EdidDescriptorString)
deriving DecidableEq, Repr

def EdidR3Descriptor.valid : EdidR3Descriptor → Bool
  | .detailedTiming dtd => dtd.valid
  | .custom c => c.valid
  | .dummy => true
  | .standardTimings => false
  | .colorPointData => false
  | .productName v => v.valid
  | .displayRangeLimits d => d.valid
  | .dataString v => v.valid
  | .productSerialNumber v => v.valid

/-- `EdidR3Descriptor::into_bytes`; `unimplemented!` variants are `none`. -/
def EdidR3Descriptor.intoBytes : EdidR3Descriptor → Option (List Nat)
  | .detailedTiming dtd => dtd.intoBytes
  | .custom c => some c.intoBytes
  | .dummy => some dummyDescriptorBytes
  | .standardTimings => none
  | .colorPointData => none
  | .productName v => v.intoBytes.map (fun p => [0, 0, 0, 0xfc, 0] ++ p)
  | .displayRangeLimits d => d.intoBytes.map (fun p => [0, 0, 0, 0xfd, 0] ++ p)
  | .dataString v => v.intoBytes.map (fun p => [0, 0, 0, 0xfe, 0] ++ p)
  | .productSerialNumber v => v.intoBytes.map (fun p => [0, 0, 0, 0xff, 0] ++ p)

inductive EdidR4Descriptor
  | detailedTiming (dtd : EdidDescriptorDetailedTiming)
  | custom (c : EdidDescriptorCustom)
  | dummy
  | establishedTimings (et : EdidR4DescriptorEstablishedTimings)
  | cvt
  | displayColorManagement
  | standardTimings
  | colorPointData
  | productName (v : EdidDescriptorString)
  | displayRangeLimits (d : EdidR4DisplayRangeLimits)
  | dataString (v : EdidDescriptorString)
  | productSerialNumber (v : EdidDescriptorString)
deriving DecidableEq, Repr

def EdidR4Descriptor.valid : EdidR4Descriptor → Bool
  | .detailedTiming dtd => dtd.valid
  | .custom c => c.valid
  | .dummy => true
  | .establishedTimings et => et.valid
  | .cvt => false
  | .displayColorManagement => false
  | .standardTimings => false
  | .colorPointData => false
  | .productName v => v.valid
  | .displayRangeLimits d => d.valid
  | .dataString v => v.valid
  | .productSerialNumber v => v.valid

/-- `EdidR4Descriptor::into_bytes`; note the 4-byte header of the R4
Display Range Limits variant (its payload is 14 bytes). -/
def EdidR4Descriptor.intoBytes : EdidR4Descriptor → Option (List Nat)
  | .detailedTiming dtd => dtd.intoBytes
  | .custom c => some c.intoBytes
  | .dummy => some dummyDescriptorBytes
  | .establishedTimings et => et.intoBytes.map (fun p => [0, 0, 0, 0xf7, 0] ++ p)
  | .cvt => none
  | .displayColorManagement => none
  | .standardTimings => none
  | .colorPointData => none
  | .productName v => v.intoBytes.map (fun p => [0, 0, 0, 0xfc, 0] ++ p)
  | .displayRangeLimits d => d.intoBytes.map (fun p => [0, 0, 0, 0xfd] ++ p)
  | .dataString v => v.intoBytes.map (fun p => [0, 0, 0, 0xfe, 0] ++ p)
  | .productSerialNumber v => v.intoBytes.map (fun p => [0, 0, 0, 0xff, 0] ++ p)

inductive EdidDescriptor
  | r3 (d : EdidR3Descriptor)
  | r4 (d : EdidR4Descriptor)
deriving DecidableEq, Repr

def EdidDescriptor.valid : EdidDescriptor → Bool
  | .r3 d => d.valid
  | .r4 d => d.valid

def EdidDescriptor.intoBytes : EdidDescriptor → Option (List Nat)
  | .r3 d => d.intoBytes
  | .r4 d => d.intoBytes

/-- `impl IntoBytes for Vec<EdidDescriptor>`: encode each descriptor in
order, then pad the slots `(last_idx + 1)..4` with Dummy descriptors —
`last_idx` stays at its initialisation `0` for an empty vector — and
finally assert the section is `18 · 4` bytes (`none` when that assertion
fires). -/
def vecEdidDescriptorIntoBytes (l : List EdidDescriptor) : Option (List Nat) :=
  match encodeAll EdidDescriptor.intoBytes l with
  | none => none
  | some parts =>
    let lastIdx := l.length - 1
    let bytes :=
      parts.flatten ++ (List.replicate (4 - (lastIdx + 1)) dummyDescriptorBytes).flatten
    if bytes.length = 72 then some bytes else none

/-! ### CTA-861 extension layer (redid/src/extensions.rs) -/

/-- `div_round_up` (redid/src/utils.rs). -/
def divRoundUp (n d : Nat) : Nat :=
  (((n + d - 1) / d) * d) / d

/-- An LPCM short audio descriptor: channel count (validated `1..=8`) plus
the sampling-frequency and sample-size enum discriminants (`0..=6` and
`0..=2` by the Rust enum types). -/
structure EdidExtensionCTA861AudioDataBlockLPCM where
  channels : Nat
  samplingFrequencies : List Nat
  samplingRates : List Nat
deriving DecidableEq, Repr

def EdidExtensionCTA861AudioDataBlockLPCM.valid
    (b : EdidExtensionCTA861AudioDataBlockLPCM) : Bool :=
  1 ≤ b.channels && b.channels ≤ 8 &&
    b.samplingFrequencies.all (· ≤ 6) && b.samplingRates.all (· ≤ 2)

/-- The 3 bytes of one LPCM short audio descriptor. -/
def EdidExtensionCTA861AudioDataBlockLPCM.descBytes
    (b : EdidExtensionCTA861AudioDataBlockLPCM) : List Nat :=
  [(1 <<< 3) ||| (b.channels - 1),
   b.samplingFrequencies.foldl (fun byte f => byte ||| (1 <<< f)) 0,
   b.samplingRates.foldl (fun byte r => byte ||| (1 <<< r)) 0]

structure EdidExtensionCTA861AudioDataBlock where
  desc : List EdidExtensionCTA861AudioDataBlockLPCM
deriving DecidableEq, Repr

def EdidExtensionCTA861AudioDataBlock.valid (b : EdidExtensionCTA861AudioDataBlock) : Bool :=
  b.desc.all EdidExtensionCTA861AudioDataBlockLPCM.valid

def EdidExtensionCTA861AudioDataBlock.size (b : EdidExtensionCTA861AudioDataBlock) : Nat :=
  1 + 3 * b.desc.length

/-- `EdidExtensionCTA861AudioDataBlock::into_bytes`: tag byte
`1 << 5 | (size - 1)` then the 3-byte descriptors; `(size - 1)` not
fitting a `u8` is the `expect` panic. -/
def EdidExtensionCTA861AudioDataBlock.intoBytes
    (b : EdidExtensionCTA861AudioDataBlock) : Option (List Nat) :=
  if b.size - 1 ≤ 255 then
    some (((1 <<< 5) ||| (b.size - 1)) ::
      (b.desc.map EdidExtensionCTA861AudioDataBlockLPCM.descBytes).flatten)
  else
    none

/-- `EdidExtensionCTA861SpeakerAllocationDataBlock`: twenty speaker
presence flags. -/
structure EdidExtensionCTA861SpeakerAllocationDataBlock where
  frontLeftFrontRight : Bool
  lowFrequencyEffects : Bool
  frontCenter : Bool
  backLeftBackRight : Bool
  backCenter : Bool
  frontLeftOfCenterFrontRightOfCenter : Bool
  rearLeftOfCenterRearRightOfCenter : Bool
  frontLeftWideFrontRightWide : Bool
  topFrontLeftTopFrontRight : Bool
  topCenter : Bool
  topFrontCenter : Bool
  leftSurroundRightSurround : Bool
  lowFrequencyEffects2 : Bool
  topBackCenter : Bool
  sideLeftSideRight : Bool
  topSideLeftTopSideRight : Bool
  topBackLeftTopBackRight : Bool
  bottomFrontCenter : Bool
  bottomFromLeftBottomFrontRight : Bool
  topLeftSurroundTopRightSurround : Bool
deriving DecidableEq, Repr

/-- First bitmap byte of the speaker allocation block. -/
def EdidExtensionCTA861SpeakerAllocationDataBlock.byte1
    (b : EdidExtensionCTA861SpeakerAllocationDataBlock) : Nat :=
  (if b.frontLeftWideFrontRightWide then 1 <<< 7 else 0) |||
    (if b.rearLeftOfCenterRearRightOfCenter then 1 <<< 6 else 0) |||
    (if b.frontLeftOfCenterFrontRightOfCenter then 1 <<< 5 else 0) |||
    (if b.backCenter then 1 <<< 4 else 0) |||
    (if b.backLeftBackRight then 1 <<< 3 else 0) |||
    (if b.frontCenter then 1 <<< 2 else 0) |||
    (if b.lowFrequencyEffects then 1 <<< 1 else 0) |||
    (if b.frontLeftFrontRight then 1 else 0)

/-- Second bitmap byte of the speaker allocation block. -/
def EdidExtensionCTA861SpeakerAllocationDataBlock.byte2
    (b : EdidExtensionCTA861SpeakerAllocationDataBlock) : Nat :=
  (if b.topSideLeftTopSideRight then 1 <<< 7 else 0) |||
    (if b.sideLeftSideRight then 1 <<< 6 else 0) |||
    (if b.topBackCenter then 1 <<< 5 else 0) |||
    (if b.lowFrequencyEffects2 then 1 <<< 4 else 0) |||
    (if b.leftSurroundRightSurround then 1 <<< 3 else 0) |||
    (if b.topFrontCenter then 1 <<< 2 else 0) |||
    (if b.topCenter then 1 <<< 1 else 0) |||
    (if b.topFrontLeftTopFrontRight then 1 else 0)

/-- Third bitmap byte of the speaker allocation block. -/
def EdidExtensionCTA861SpeakerAllocationDataBlock.byte3
    (b : EdidExtensionCTA861SpeakerAllocationDataBlock) : Nat :=
  (if b.topLeftSurroundTopRightSurround then 1 <<< 3 else 0) |||
    (if b.bottomFromLeftBottomFrontRight then 1 <<< 2 else 0) |||
    (if b.bottomFrontCenter then 1 <<< 1 else 0) |||
    (if b.topBackLeftTopBackRight then 1 else 0)

/-- `EdidExtensionCTA861SpeakerAllocationDataBlock::into_bytes`
(tag `4 << 5 | 3` then the fixed 3-byte bitmap). -/
def EdidExtensionCTA861SpeakerAllocationDataBlock.intoBytes
    (b : EdidExtensionCTA861SpeakerAllocationDataBlock) : Option (List Nat) :=
  some [(4 <<< 5) ||| 3, b.byte1, b.byte2, b.byte3]

structure EdidExtensionCTA861ColorimetryDataBlock where
  xvYcc601 : Bool
  xvYcc709 : Bool
  sYcc601 : Bool
  opYcc601 : Bool
  opRgb : Bool
  bt2020cYcc : Bool
  bt2020Ycc : Bool
  bt2020Rgb : Bool
  dciP3 : Bool
deriving DecidableEq, Repr

/-- `EdidExtensionCTA861ColorimetryDataBlock::into_bytes`: extended tag 5,
one colorimetry bitmap byte, then the metadata byte whose bit 5 is always
set. -/
def EdidExtensionCTA861ColorimetryDataBlock.intoBytes
    (b : EdidExtensionCTA861ColorimetryDataBlock) : Option (List Nat) :=
  some [(7 <<< 5) ||| 3, 5,
        (if b.bt2020Rgb then 1 <<< 7 else 0) |||
          (if b.bt2020Ycc then 1 <<< 6 else 0) |||
          (if b.bt2020cYcc then 1 <<< 5 else 0) |||
          (if b.opRgb then 1 <<< 4 else 0) |||
          (if b.opYcc601 then 1 <<< 3 else 0) |||
          (if b.sYcc601 then 1 <<< 2 else 0) |||
          (if b.xvYcc709 then 1 <<< 1 else 0) |||
          (if b.xvYcc601 then 1 else 0),
        (1 <<< 5) ||| (if b.dciP3 then 1 <<< 7 else 0)]

/-- A short video descriptor: `Low(native, vic)` for VICs below 64 (the
native flag goes to bit 7), `High(vic)` otherwise. -/
inductive EdidExtensionCTA861VideoDataBlockDesc
  | low (native : Bool) (vic : Nat)
  | high (vic : Nat)
deriving DecidableEq, Repr

def EdidExtensionCTA861VideoDataBlockDesc.valid : EdidExtensionCTA861VideoDataBlockDesc → Bool
  | .low _ vic => vic < 64
  | .high vic => 64 ≤ vic && vic ≤ 255

def EdidExtensionCTA861VideoDataBlockDesc.descByte : EdidExtensionCTA861VideoDataBlockDesc → Nat
  | .low native vic => if native then (1 <<< 7) ||| vic else vic
  | .high vic => vic

structure EdidExtensionCTA861VideoDataBlock where
  descriptors : List EdidExtensionCTA861VideoDataBlockDesc
deriving DecidableEq, Repr

def EdidExtensionCTA861VideoDataBlock.valid (b : EdidExtensionCTA861VideoDataBlock) : Bool :=
  b.descriptors.all EdidExtensionCTA861VideoDataBlockDesc.valid

def EdidExtensionCTA861VideoDataBlock.size (b : EdidExtensionCTA861VideoDataBlock) : Nat :=
  1 + b.descriptors.length

/-- `EdidExtensionCTA861VideoDataBlock::into_bytes`: tag byte
`2 << 5 | (size - 1)` then one byte per descriptor. -/
def EdidExtensionCTA861VideoDataBlock.intoBytes
    (b : EdidExtensionCTA861VideoDataBlock) : Option (List Nat) :=
  if b.size - 1 ≤ 255 then
    some (((2 <<< 5) ||| (b.size - 1)) ::
      b.descriptors.map EdidExtensionCTA861VideoDataBlockDesc.descByte)
  else
    none

/-- `CecAddress`: four nibbles, each validated `≤ 15`. -/
structure CecAddress where
  a : Nat
  b : Nat
  c : Nat
  d : Nat
deriving DecidableEq, Repr

def CecAddress.valid (x : CecAddress) : Bool :=
  x.a ≤ 15 && x.b ≤ 15 && x.c ≤ 15 && x.d ≤ 15

structure EdidExtensionCTA861Hdmi14bDataBlockVideo where
  vics : List Nat
deriving DecidableEq, Repr

structure EdidExtensionCTA861HdmiDataBlock where
  sourcePhysicalAddress : CecAddress
  deepColor30Bits : Bool
  deepColor36Bits : Bool
  deepColor48Bits : Bool
  deepColorYcbcr444 : Bool
  dviDual : Bool
  acpIsrc : Bool
  maxTmdsRateMhz : Option Nat
  video : Option EdidExtensionCTA861Hdmi14bDataBlockVideo
deriving DecidableEq, Repr

def EdidExtensionCTA861HdmiDataBlock.valid (b : EdidExtensionCTA861HdmiDataBlock) : Bool :=
  b.sourcePhysicalAddress.valid &&
    (match b.maxTmdsRateMhz with
      | Option.none => true
      | some r => 5 ≤ r && r ≤ 340) &&
    (match b.video with
      | Option.none => true
      | some v => v.vics.all (· ≤ 255))

def EdidExtensionCTA861HdmiDataBlock.anyFlag (b : EdidExtensionCTA861HdmiDataBlock) : Bool :=
  b.acpIsrc || b.deepColor30Bits || b.deepColor36Bits || b.deepColor48Bits ||
    b.deepColorYcbcr444 || b.dviDual

/-- `EdidExtensionCTA861HdmiDataBlock::size`. -/
def EdidExtensionCTA861HdmiDataBlock.size (b : EdidExtensionCTA861HdmiDataBlock) : Nat :=
  6 +
    (match b.video with
      | some v => 3 + (2 + v.vics.length)
      | Option.none =>
        match b.maxTmdsRateMhz with
        | some _ => 2
        | Option.none => if b.anyFlag then 1 else 0)

/-- The optional flags byte written at index 6. -/
def EdidExtensionCTA861HdmiDataBlock.byte6 (b : EdidExtensionCTA861HdmiDataBlock) : Nat :=
  (if b.acpIsrc then 1 <<< 7 else 0) |||
    (if b.deepColor48Bits then 1 <<< 6 else 0) |||
    (if b.deepColor36Bits then 1 <<< 5 else 0) |||
    (if b.deepColor30Bits then 1 <<< 4 else 0) |||
    (if b.deepColorYcbcr444 then 1 <<< 3 else 0) |||
    (if b.dviDual then 1 else 0)

/-- `EdidExtensionCTA861HdmiDataBlock::into_bytes`: header and OUI, the CEC
address nibbles, a conditional resize to 7, 8 or 9 bytes with the flag,
max-TMDS and video-present bytes written in place, then the VIC sub-block.
The `none` branches are the `expect`s on the size byte, the TMDS rate and
the VIC count. -/
def EdidExtensionCTA861HdmiDataBlock.intoBytes
    (b : EdidExtensionCTA861HdmiDataBlock) : Option (List Nat) :=
  if b.size - 1 ≤ 255 then
    let data := [(3 <<< 5) ||| (b.size - 1), 0x03, 0x0c, 0x00,
                 (b.sourcePhysicalAddress.a * 16 % 256) ||| b.sourcePhysicalAddress.b,
                 (b.sourcePhysicalAddress.c * 16 % 256) ||| b.sourcePhysicalAddress.d]
    let data :=
      match b.video, b.maxTmdsRateMhz with
      | some _, _ => listResize data 9 0
      | Option.none, some _ => listResize data 8 0
      | Option.none, Option.none => if b.anyFlag then listResize data 7 0 else data
    let data := if data.length > 6 then data.set 6 b.byte6 else data
    match
      (if data.length > 7 then
        match b.maxTmdsRateMhz with
        | some r => if divRoundUp r 5 ≤ 255 then some (data.set 7 (divRoundUp r 5)) else none
        | Option.none => some (data.set 7 0)
      else some data) with
    | Option.none => none
    | some data =>
      let data :=
        if data.length > 8 then
          data.set 8 (match b.video with | some _ => 1 <<< 5 | Option.none => 0)
        else data
      match b.video with
      | Option.none => some data
      | some v =>
        if v.vics.length ≤ 255 then
          some (data ++ [0, v.vics.length * 32 % 256] ++ v.vics)
        else
          none
  else
    none

inductive EdidExtensionCTA861VideoCapabilityQuantization
  | noData
  | selectable
deriving DecidableEq, Repr

def EdidExtensionCTA861VideoCapabilityQuantization.asRaw :
    EdidExtensionCTA861VideoCapabilityQuantization → Nat
  | .noData => 0
  | .selectable => 1

inductive EdidExtensionCTA861VideoCapabilityScanBehavior
  | notSupported
  | overscanned
  | underscanned
  | both
deriving DecidableEq, Repr

def EdidExtensionCTA861VideoCapabilityScanBehavior.asRaw :
    EdidExtensionCTA861VideoCapabilityScanBehavior → Nat
  | .notSupported => 0
  | .overscanned => 1
  | .underscanned => 2
  | .both => 3

structure EdidExtensionCTA861VideoCapabilityDataBlock where
  qyQuant : EdidExtensionCTA861VideoCapabilityQuantization
  qsQuant : EdidExtensionCTA861VideoCapabilityQuantization
  ptScan : EdidExtensionCTA861VideoCapabilityScanBehavior
  itScan : EdidExtensionCTA861VideoCapabilityScanBehavior
  ceScan : EdidExtensionCTA861VideoCapabilityScanBehavior
deriving DecidableEq, Repr

/-- `EdidExtensionCTA861VideoCapabilityDataBlock::into_bytes`: extended tag
0 and the packed QY/QS/PT/IT/CE byte. -/
def EdidExtensionCTA861VideoCapabilityDataBlock.intoBytes
    (b : EdidExtensionCTA861VideoCapabilityDataBlock) : Option (List Nat) :=
  some [(7 <<< 5) ||| 2, 0,
        b.qyQuant.asRaw * 128 + b.qsQuant.asRaw * 64 + b.ptScan.asRaw * 16 +
          b.itScan.asRaw * 4 + b.ceScan.asRaw]

inductive EdidExtensionCTA861Revision3DataBlock
  | audio (b : EdidExtensionCTA861AudioDataBlock)
  | speakerAllocation (b : EdidExtensionCTA861SpeakerAllocationDataBlock)
  | colorimetry (b : EdidExtensionCTA861ColorimetryDataBlock)
  | video (b : EdidExtensionCTA861VideoDataBlock)
  | hdmi (b : EdidExtensionCTA861HdmiDataBlock)
  | videoCapability (b : EdidExtensionCTA861VideoCapabilityDataBlock)
deriving DecidableEq, Repr

def EdidExtensionCTA861Revision3DataBlock.valid :
    EdidExtensionCTA861Revision3DataBlock → Bool
  | .audio b => b.valid
  | .speakerAllocation _ => true
  | .colorimetry _ => true
  | .video b => b.valid
  | .hdmi b => b.valid
  | .videoCapability _ => true

def EdidExtensionCTA861Revision3DataBlock.size :
    EdidExtensionCTA861Revision3DataBlock → Nat
  | .audio b => b.size
  | .speakerAllocation _ => 4
  | .colorimetry _ => 4
  | .video b => b.size
  | .hdmi b => b.size
  | .videoCapability _ => 3

def EdidExtensionCTA861Revision3DataBlock.intoBytes :
    EdidExtensionCTA861Revision3DataBlock → Option (List Nat)
  | .audio b => b.intoBytes
  | .speakerAllocation b => b.intoBytes
  | .colorimetry b => b.intoBytes
  | .video b => b.intoBytes
  | .hdmi b => b.intoBytes
  | .videoCapability b => b.intoBytes

structure EdidExtensionCTA861Revision3 where
  ycbcr422Supported : Bool
  ycbcr444Supported : Bool
  audioSupported : Bool
  underscanItFormatsByDefault : Bool
  nativeFormats : Nat
  dataBlocks : List EdidExtensionCTA861Revision3DataBlock
  timings : List EdidDescriptorDetailedTiming
deriving DecidableEq, Repr

def EdidExtensionCTA861Revision3.valid (e : EdidExtensionCTA861Revision3) : Bool :=
  e.nativeFormats ≤ 255 &&
    e.dataBlocks.all EdidExtensionCTA861Revision3DataBlock.valid &&
    e.timings.all EdidDescriptorDetailedTiming.valid

/-- Byte 2 of the extension: offset of the first detailed timing
(`4 + Σ data_block.size()`, or `0` with no data blocks and no timings);
overflowing a `u8` is the `expect` panic. -/
def EdidExtensionCTA861Revision3.dtdOffset
    (e : EdidExtensionCTA861Revision3) : Option Nat :=
  if e.dataBlocks.isEmpty && e.timings.isEmpty then
    some 0
  else
    let s := e.dataBlocks.foldl (fun acc b => acc + b.size) 4
    if s ≤ 255 then some s else none

/-- Byte 3 of the extension: feature flags and the native-format count. -/
def EdidExtensionCTA861Revision3.flagsByte (e : EdidExtensionCTA861Revision3) : Nat :=
  (if e.underscanItFormatsByDefault then 1 <<< 7 else 0) |||
    (if e.audioSupported then 1 <<< 6 else 0) |||
    (if e.ycbcr444Supported then 1 <<< 5 else 0) |||
    (if e.ycbcr422Supported then 1 <<< 4 else 0) |||
    e.nativeFormats

/-- The extension bytes as accumulated before the `Vec::resize(127, 0)`
call: the `02 03` header, DTD offset and flags bytes, then the
concatenated data blocks and detailed timings. -/
def EdidExtensionCTA861Revision3.rawContent
    (e : EdidExtensionCTA861Revision3) : Option (List Nat) :=
  match e.dtdOffset, encodeAll EdidExtensionCTA861Revision3DataBlock.intoBytes e.dataBlocks,
      encodeAll EdidDescriptorDetailedTiming.intoBytes e.timings with
  | some off, some blocks, some timings =>
    some ([0x02, 0x03, off, e.flagsByte] ++ blocks.flatten ++ timings.flatten)
  | _, _, _ => none

/-- The extension bytes before the checksum: `Vec::resize(127, 0)` —
which truncates an over-full block just as well as it pads a short one. -/
def EdidExtensionCTA861Revision3.content
    (e : EdidExtensionCTA861Revision3) : Option (List Nat) :=
  (e.rawContent).map (fun raw => listResize raw 127 0)

/-- `EdidExtensionCTA861Revision3::into_bytes`: the 127 content bytes plus
their checksum. -/
def EdidExtensionCTA861Revision3.intoBytes
    (e : EdidExtensionCTA861Revision3) : Option (List Nat) :=
  (e.content).map (fun c => c ++ [checksum c])

inductive EdidExtensionCTA861
  | revision3 (e : EdidExtensionCTA861Revision3)
deriving DecidableEq, Repr

def EdidExtensionCTA861.valid : EdidExtensionCTA861 → Bool
  | .revision3 e => e.valid

def EdidExtensionCTA861.intoBytes : EdidExtensionCTA861 → Option (List Nat)
  | .revision3 e => e.intoBytes

inductive EdidExtension
  | cta861 (e : EdidExtensionCTA861)
deriving DecidableEq, Repr

def EdidExtension.valid : EdidExtension → Bool
  | .cta861 e => e.valid

def EdidExtension.intoBytes : EdidExtension → Option (List Nat)
  | .cta861 e => e.intoBytes

/-! ### Base block (src/lib.rs) -/

/-- `EdidManufacturer`: three characters, carried as their code points.
`TryFrom<&str>` demands three uppercase ASCII characters. -/
structure EdidManufacturer where
  c0 : Nat
  c1 : Nat
  c2 : Nat
deriving DecidableEq, Repr

def EdidManufacturer.valid (m : EdidManufacturer) : Bool :=
  65 ≤ m.c0 && m.c0 ≤ 90 && 65 ≤ m.c1 && m.c1 ≤ 90 && 65 ≤ m.c2 && m.c2 ≤ 90

/-- `EdidManufacturer::into_bytes`: the three 5-bit letters packed
big-endian; a character below `'@'` underflows the `u8` subtraction
(a panic), and the `u8` shifts wrap. -/
def EdidManufacturer.intoBytes (m : EdidManufacturer) : Option (List Nat) :=
  if 64 ≤ m.c0 && 64 ≤ m.c1 && 64 ≤ m.c2 then
    some [((m.c0 - 64) * 4 % 256) ||| ((m.c1 - 64) / 8),
          ((m.c1 - 64) * 32 % 256) ||| (m.c2 - 64)]
  else
    none

/-- `EdidProductCode::into_bytes`: little-endian `u16`. -/
def edidProductCodeIntoBytes (v : Nat) : List Nat :=
  [v % 256, v / 256 % 256]

/-- `EdidSerialNumber::into_bytes`: little-endian `u32`. -/
def edidSerialNumberIntoBytes (v : Nat) : List Nat :=
  [v % 256, v / 256 % 256, v / 65536 % 256, v / 16777216 % 256]

/-- EDID 1.3 manufacture date: optional week (validated `1..=53`) and year
(validated `≥ 1990`). -/
structure EdidManufactureDate where
  week : Option Nat
  year : Nat
deriving DecidableEq, Repr

def EdidManufactureDate.valid (d : EdidManufactureDate) : Bool :=
  (match d.week with
    | Option.none => true
    | some w => 1 ≤ w && w ≤ 53) && 1990 ≤ d.year

/-- `EdidManufactureDate::into_bytes`: week byte (0 when absent) and
`year - 1990`, whose `u8` conversion `expect`s. -/
def EdidManufactureDate.intoBytes (d : EdidManufactureDate) : Option (List Nat) :=
  if 1990 ≤ d.year && d.year - 1990 ≤ 255 then
    some [(match d.week with | some w => w | Option.none => 0), d.year - 1990]
  else
    none

/-- EDID 1.4 manufacture date: optional week validated `1..=54`. -/
structure EdidR4ManufactureDate where
  week : Option Nat
  year : Nat
deriving DecidableEq, Repr

def EdidR4ManufactureDate.valid (d : EdidR4ManufactureDate) : Bool :=
  (match d.week with
    | Option.none => true
    | some w => 1 ≤ w && w ≤ 54) && 1990 ≤ d.year

def EdidR4ManufactureDate.intoBytes (d : EdidR4ManufactureDate) : Option (List Nat) :=
  if 1990 ≤ d.year && d.year - 1990 ≤ 255 then
    some [(match d.week with | some w => w | Option.none => 0), d.year - 1990]
  else
    none

/-- EDID 1.4 model date: week byte `0xff`. -/
structure EdidR4ModelDate where
  year : Nat
deriving DecidableEq, Repr

def EdidR4ModelDate.valid (d : EdidR4ModelDate) : Bool :=
  1990 ≤ d.year

def EdidR4ModelDate.intoBytes (d : EdidR4ModelDate) : Option (List Nat) :=
  if 1990 ≤ d.year && d.year - 1990 ≤ 255 then
    some [0xff, d.year - 1990]
  else
    none

inductive EdidR4Date
  | manufacture (d : EdidR4ManufactureDate)
  | model (d : EdidR4ModelDate)
deriving DecidableEq, Repr

def EdidR4Date.valid : EdidR4Date → Bool
  | .manufacture d => d.valid
  | .model d => d.valid

def EdidR4Date.intoBytes : EdidR4Date → Option (List Nat)
  | .manufacture d => d.intoBytes
  | .model d => d.intoBytes

inductive EdidDate
  | r3 (d : EdidManufactureDate)
  | r4 (d : EdidR4Date)
deriving DecidableEq, Repr

def EdidDate.valid : EdidDate → Bool
  | .r3 d => d.valid
  | .r4 d => d.valid

def EdidDate.intoBytes : EdidDate → Option (List Nat)
  | .r3 d => d.intoBytes
  | .r4 d => d.intoBytes

/-- `EdidAnalogSignalLevelStandard` (`repr(u8)`, discriminants 0-3). -/
inductive EdidAnalogSignalLevelStandard
  | v0700s0300t1000
  | v0714s0286t1000
  | v1000s0400t1400
  | v0700s0000t0700
deriving DecidableEq, Repr

def EdidAnalogSignalLevelStandard.toRaw : EdidAnalogSignalLevelStandard → Nat
  | .v0700s0300t1000 => 0
  | .v0714s0286t1000 => 1
  | .v1000s0400t1400 => 2
  | .v0700s0000t0700 => 3

inductive EdidAnalogVideoSetup
  | blankLevelIsBlackLevel
  | blankToBlackSetupOrPedestal
deriving DecidableEq, Repr

def EdidAnalogVideoSetup.toRaw : EdidAnalogVideoSetup → Nat
  | .blankLevelIsBlackLevel => 0
  | .blankToBlackSetupOrPedestal => 1

structure EdidAnalogVideoInputDefinition where
  signalLevel : EdidAnalogSignalLevelStandard
  setup : EdidAnalogVideoSetup
  separateHvSyncSignals : Bool
  compositeSyncSignalOnHsync : Bool
  compositeSyncSignalOnGreenVideo : Bool
  serrationsOnVsync : Bool
deriving DecidableEq, Repr

/-- `EdidAnalogVideoInputDefinition::into_bytes` (one byte). -/
def EdidAnalogVideoInputDefinition.intoBytes
    (v : EdidAnalogVideoInputDefinition) : List Nat :=
  [(v.signalLevel.toRaw <<< 5) ||| (v.setup.toRaw <<< 4) |||
    (if v.separateHvSyncSignals then 1 <<< 3 else 0) |||
    (if v.compositeSyncSignalOnHsync then 1 <<< 2 else 0) |||
    (if v.compositeSyncSignalOnGreenVideo then 1 <<< 1 else 0) |||
    (if v.serrationsOnVsync then 1 else 0)]

structure EdidR3DigitalVideoInputDefinition where
  dfp1Compatible : Bool
deriving DecidableEq, Repr

def EdidR3DigitalVideoInputDefinition.intoBytes
    (v : EdidR3DigitalVideoInputDefinition) : List Nat :=
  [0x80 ||| (if v.dfp1Compatible then 1 else 0)]

inductive EdidR3VideoInputDefinition
  | analog (v : EdidAnalogVideoInputDefinition)
  | digital (v : EdidR3DigitalVideoInputDefinition)
deriving DecidableEq, Repr

def EdidR3VideoInputDefinition.intoBytes : EdidR3VideoInputDefinition → List Nat
  | .analog v => v.intoBytes
  | .digital v => v.intoBytes

/-- `EdidScreenSize`: both lengths validated `1..=255` centimetres. -/
structure EdidScreenSize where
  horizontalCm : Nat
  verticalCm : Nat
deriving DecidableEq, Repr

def EdidScreenSize.valid (s : EdidScreenSize) : Bool :=
  1 ≤ s.horizontalCm && s.horizontalCm ≤ 255 && 1 ≤ s.verticalCm && s.verticalCm ≤ 255

inductive EdidR3ImageSize
  | size (s : EdidScreenSize)
  | undefined
deriving DecidableEq, Repr

def EdidR3ImageSize.valid : EdidR3ImageSize → Bool
  | .size s => s.valid
  | .undefined => true

def EdidR3ImageSize.intoBytes : EdidR3ImageSize → List Nat
  | .size s => [s.horizontalCm, s.verticalCm]
  | .undefined => [0x00, 0x00]

inductive EdidDisplayColorType
  | monochromeGrayScale
  | rgbColor
  | nonRgbColor
  | undefined
deriving DecidableEq, Repr

def EdidDisplayColorType.toRaw : EdidDisplayColorType → Nat
  | .monochromeGrayScale => 0
  | .rgbColor => 1
  | .nonRgbColor => 2
  | .undefined => 3

/-- `EdidDisplayTransferCharacteristics`: the gamma float is carried as
`round(gamma · 100)` (so the stored byte is that value minus 100); the
constructor admits `1.0..=3.54`, hence `100..=354`. -/
inductive EdidDisplayTransferCharacteristics
  | gamma (cent : Nat)
  | displayInformationExtension
deriving DecidableEq, Repr

def EdidDisplayTransferCharacteristics.valid : EdidDisplayTransferCharacteristics → Bool
  | .gamma cent => 100 ≤ cent && cent ≤ 354
  | .displayInformationExtension => true

/-- `EdidDisplayTransferCharacteristics::into_bytes`: the stored byte is
`round(gamma·100) − 100`, `expect`ed to fit a `u8`; the
display-information-extension sentinel is `0xff`. -/
def EdidDisplayTransferCharacteristics.intoBytes :
    EdidDisplayTransferCharacteristics → Option (List Nat)
  | .gamma cent => if 100 ≤ cent && cent - 100 ≤ 255 then some [cent - 100] else none
  | .displayInformationExtension => some [0xff]

structure EdidR3FeatureSupport where
  standby : Bool
  suspend : Bool
  activeOffIsVeryLowPower : Bool
  displayType : EdidDisplayColorType
  srgbDefaultColorSpace : Bool
  defaultGtfSupported : Bool
deriving DecidableEq, Repr

/-- `EdidR3FeatureSupport::into_bytes`: bit 1 (preferred timing mode) is
always set for EDID 1.3. -/
def EdidR3FeatureSupport.intoBytes (f : EdidR3FeatureSupport) : List Nat :=
  [(1 <<< 1) |||
    (if f.standby then 1 <<< 7 else 0) |||
    (if f.suspend then 1 <<< 6 else 0) |||
    (if f.activeOffIsVeryLowPower then 1 <<< 5 else 0) |||
    (f.displayType.toRaw <<< 3) |||
    (if f.srgbDefaultColorSpace then 1 <<< 2 else 0) |||
    (if f.defaultGtfSupported then 1 else 0)]

structure EdidR3BasicDisplayParametersFeatures where
  videoInput : EdidR3VideoInputDefinition
  size : EdidR3ImageSize
  displayTransferCharacteristic : EdidDisplayTransferCharacteristics
  featureSupport : EdidR3FeatureSupport
deriving DecidableEq, Repr

def EdidR3BasicDisplayParametersFeatures.valid
    (b : EdidR3BasicDisplayParametersFeatures) : Bool :=
  b.size.valid && b.displayTransferCharacteristic.valid

def EdidR3BasicDisplayParametersFeatures.intoBytes
    (b : EdidR3BasicDisplayParametersFeatures) : Option (List Nat) :=
  match b.displayTransferCharacteristic.intoBytes with
  | some gamma =>
    some (b.videoInput.intoBytes ++ b.size.intoBytes ++ gamma ++ b.featureSupport.intoBytes)
  | Option.none => none

inductive EdidR4DigitalColorDepth
  | depthUndefined
  | depth6Bpc
  | depth8Bpc
  | depth10Bpc
  | depth12Bpc
  | depth14Bpc
  | depth16Bpc
deriving DecidableEq, Repr

def EdidR4DigitalColorDepth.toRaw : EdidR4DigitalColorDepth → Nat
  | .depthUndefined => 0
  | .depth6Bpc => 1
  | .depth8Bpc => 2
  | .depth10Bpc => 3
  | .depth12Bpc => 4
  | .depth14Bpc => 5
  | .depth16Bpc => 6

inductive EdidR4DigitalInterface
  | undefined
  | dvi
  | hdmiA
  | hdmiB
  | mddi
  | displayPort
deriving DecidableEq, Repr

def EdidR4DigitalInterface.toRaw : EdidR4DigitalInterface → Nat
  | .undefined => 0
  | .dvi => 1
  | .hdmiA => 2
  | .hdmiB => 3
  | .mddi => 4
  | .displayPort => 5

structure EdidR4DigitalVideoInputDefinition where
  colorDepth : EdidR4DigitalColorDepth
  interface : EdidR4DigitalInterface
deriving DecidableEq, Repr

def EdidR4DigitalVideoInputDefinition.intoBytes
    (v : EdidR4DigitalVideoInputDefinition) : List Nat :=
  [(1 <<< 7) ||| (v.colorDepth.toRaw <<< 4) ||| v.interface.toRaw]

inductive EdidR4VideoInputDefinition
  | analog (v : EdidAnalogVideoInputDefinition)
  | digital (v : EdidR4DigitalVideoInputDefinition)
deriving DecidableEq, Repr

def EdidR4VideoInputDefinition.intoBytes : EdidR4VideoInputDefinition → List Nat
  | .analog v => v.intoBytes
  | .digital v => v.intoBytes

/-- `EdidR4ImageSize`: the aspect variants carry `round(100 · value)` for
landscape and `round(100 / value)` for portrait; the constructors admit
`1.00..=3.54` and `0.28..=0.99` respectively. -/
inductive EdidR4ImageSize
  | landscape (cent : Nat)
  | portrait (centInv : Nat)
  | size (s : EdidScreenSize)
  | undefined
deriving DecidableEq, Repr

def EdidR4ImageSize.valid : EdidR4ImageSize → Bool
  | .landscape cent => 100 ≤ cent && cent ≤ 354
  | .portrait centInv => 101 ≤ centInv && centInv ≤ 358
  | .size s => s.valid
  | .undefined => true

/-- `EdidR4ImageSize::into_bytes`: the stored aspect byte is the rounded
value minus 99, `expect`ed to fit a `u8`. -/
def EdidR4ImageSize.intoBytes : EdidR4ImageSize → Option (List Nat)
  | .landscape cent =>
    if 99 ≤ cent && cent - 99 ≤ 255 then some [cent - 99, 0x00] else none
  | .portrait centInv =>
    if 99 ≤ centInv && centInv - 99 ≤ 255 then some [0x00, centInv - 99] else none
  | .size s => some [s.horizontalCm, s.verticalCm]
  | .undefined => some [0x00, 0x00]

inductive EdidR4DisplayColorEncoding
  | rgb444
  | rgb444YCbCr444
  | rgb444YCbCr422
  | rgb444YCbCr444YCbCr422
deriving DecidableEq, Repr

def EdidR4DisplayColorEncoding.toRaw : EdidR4DisplayColorEncoding → Nat
  | .rgb444 => 0
  | .rgb444YCbCr444 => 1
  | .rgb444YCbCr422 => 2
  | .rgb444YCbCr444YCbCr422 => 3

inductive EdidR4DisplayColor
  | analog (c : EdidDisplayColorType)
  | digital (c : EdidR4DisplayColorEncoding)
deriving DecidableEq, Repr

def EdidR4DisplayColor.toRaw : EdidR4DisplayColor → Nat
  | .analog c => c.toRaw
  | .digital c => c.toRaw

structure EdidR4FeatureSupport where
  standby : Bool
  suspend : Bool
  activeOffIsVeryLowPower : Bool
  color : EdidR4DisplayColor
  srgbDefaultColorSpace : Bool
  preferredTimingModeIsNative : Bool
  continuousFrequency : Bool
deriving DecidableEq, Repr

def EdidR4FeatureSupport.intoBytes (f : EdidR4FeatureSupport) : List Nat :=
  [(if f.standby then 1 <<< 7 else 0) |||
    (if f.suspend then 1 <<< 6 else 0) |||
    (if f.activeOffIsVeryLowPower then 1 <<< 5 else 0) |||
    (f.color.toRaw <<< 3) |||
    (if f.srgbDefaultColorSpace then 1 <<< 2 else 0) |||
    (if f.preferredTimingModeIsNative then 1 <<< 1 else 0) |||
    (if f.continuousFrequency then 1 else 0)]

structure EdidR4BasicDisplayParametersFeatures where
  videoInput : EdidR4VideoInputDefinition
  size : EdidR4ImageSize
  displayTransferCharacteristic : EdidDisplayTransferCharacteristics
  featureSupport : EdidR4FeatureSupport
deriving DecidableEq, Repr

def EdidR4BasicDisplayParametersFeatures.valid
    (b : EdidR4BasicDisplayParametersFeatures) : Bool :=
  b.size.valid && b.displayTransferCharacteristic.valid

def EdidR4BasicDisplayParametersFeatures.intoBytes
    (b : EdidR4BasicDisplayParametersFeatures) : Option (List Nat) :=
  match b.size.intoBytes, b.displayTransferCharacteristic.intoBytes with
  | some size, some gamma =>
    some (b.videoInput.intoBytes ++ size ++ gamma ++ b.featureSupport.intoBytes)
  | _, _ => none

inductive EdidBasicDisplayParametersFeatures
  | r3 (b : EdidR3BasicDisplayParametersFeatures)
  | r4 (b : EdidR4BasicDisplayParametersFeatures)
deriving DecidableEq, Repr

def EdidBasicDisplayParametersFeatures.valid : EdidBasicDisplayParametersFeatures → Bool
  | .r3 b => b.valid
  | .r4 b => b.valid

def EdidBasicDisplayParametersFeatures.intoBytes :
    EdidBasicDisplayParametersFeatures → Option (List Nat)
  | .r3 b => b.intoBytes
  | .r4 b => b.intoBytes

/-- `EdidChromaticityPoint`: both coordinates carried as `round(v · 1024)`
(the `into_raw` value); the constructor admits floats in `0.0..=1.0`. -/
structure EdidChromaticityPoint where
  x : Nat
  y : Nat
deriving DecidableEq, Repr

def EdidChromaticityPoint.valid (p : EdidChromaticityPoint) : Bool :=
  p.x ≤ 1024 && p.y ≤ 1024

/-- The `to_u16` `expect` inside `into_raw`. -/
def EdidChromaticityPoint.fitsU16 (p : EdidChromaticityPoint) : Bool :=
  p.x ≤ 65535 && p.y ≤ 65535

structure EdidChromaticityPoints where
  white : EdidChromaticityPoint
  red : EdidChromaticityPoint
  green : EdidChromaticityPoint
  blue : EdidChromaticityPoint
deriving DecidableEq, Repr

inductive EdidFilterChromaticity
  | monoChrome (white : EdidChromaticityPoint)
  | color (points : EdidChromaticityPoints)
deriving DecidableEq, Repr

def EdidFilterChromaticity.valid : EdidFilterChromaticity → Bool
  | .monoChrome w => w.valid
  | .color p => p.white.valid && p.red.valid && p.green.valid && p.blue.valid

/-- `EdidFilterChromaticity::into_bytes`: the 10-byte section; `x_lo` is
`raw & 0b11`, `x_hi` is `(raw >> 2) & 0xff`. -/
def EdidFilterChromaticity.intoBytes : EdidFilterChromaticity → Option (List Nat)
  | .monoChrome w =>
    if w.fitsU16 then
      some [0x00, (w.x % 4) * 4 + w.y % 4, 0x00, 0x00, 0x00, 0x00, 0x00, 0x00,
            w.x / 4 % 256, w.y / 4 % 256]
    else
      none
  | .color p =>
    if p.white.fitsU16 && p.red.fitsU16 && p.green.fitsU16 && p.blue.fitsU16 then
      some [(p.red.x % 4) * 64 + (p.red.y % 4) * 16 + (p.green.x % 4) * 4 + p.green.y % 4,
            (p.blue.x % 4) * 64 + (p.blue.y % 4) * 16 + (p.white.x % 4) * 4 + p.white.y % 4,
            p.red.x / 4 % 256, p.red.y / 4 % 256,
            p.green.x / 4 % 256, p.green.y / 4 % 256,
            p.blue.x / 4 % 256, p.blue.y / 4 % 256,
            p.white.x / 4 % 256, p.white.y / 4 % 256]
    else
      none

/-- `EdidEstablishedTiming` (Established Timings I and II plus the
manufacturer byte). -/
inductive EdidEstablishedTiming
  | et1024x768x60
  | et1024x768x70
  | et1024x768x75
  | et1024x768x87i
  | et1152x870x75
  | et1280x1024x75
  | et640x480x60
  | et640x480x67
  | et640x480x72
  | et640x480x75
  | et720x400x70
  | et720x400x88
  | et800x600x56
  | et800x600x60
  | et800x600x72
  | et800x600x75
  | et832x624x75
  | manufacturer0
  | manufacturer1
  | manufacturer2
  | manufacturer3
  | manufacturer4
  | manufacturer5
  | manufacturer6
deriving DecidableEq, Repr

/-- One step of the `for et in self` loop of
`impl IntoBytes for Vec<EdidEstablishedTiming>`: OR the timing's bit into
`(byte0, byte1, byte2)`. -/
def EdidEstablishedTiming.orBit (acc : Nat × Nat × Nat) :
    EdidEstablishedTiming → Nat × Nat × Nat
  | .et800x600x60 => (acc.1 ||| (1 <<< 0), acc.2.1, acc.2.2)
  | .et800x600x56 => (acc.1 ||| (1 <<< 1), acc.2.1, acc.2.2)
  | .et640x480x75 => (acc.1 ||| (1 <<< 2), acc.2.1, acc.2.2)
  | .et640x480x72 => (acc.1 ||| (1 <<< 3), acc.2.1, acc.2.2)
  | .et640x480x67 => (acc.1 ||| (1 <<< 4), acc.2.1, acc.2.2)
  | .et640x480x60 => (acc.1 ||| (1 <<< 5), acc.2.1, acc.2.2)
  | .et720x400x88 => (acc.1 ||| (1 <<< 6), acc.2.1, acc.2.2)
  | .et720x400x70 => (acc.1 ||| (1 <<< 7), acc.2.1, acc.2.2)
  | .et1280x1024x75 => (acc.1, acc.2.1 ||| (1 <<< 0), acc.2.2)
  | .et1024x768x75 => (acc.1, acc.2.1 ||| (1 <<< 1), acc.2.2)
  | .et1024x768x70 => (acc.1, acc.2.1 ||| (1 <<< 2), acc.2.2)
  | .et1024x768x60 => (acc.1, acc.2.1 ||| (1 <<< 3), acc.2.2)
  | .et1024x768x87i => (acc.1, acc.2.1 ||| (1 <<< 4), acc.2.2)
  | .et832x624x75 => (acc.1, acc.2.1 ||| (1 <<< 5), acc.2.2)
  | .et800x600x75 => (acc.1, acc.2.1 ||| (1 <<< 6), acc.2.2)
  | .et800x600x72 => (acc.1, acc.2.1 ||| (1 <<< 7), acc.2.2)
  | .et1152x870x75 => (acc.1, acc.2.1, acc.2.2 ||| (1 <<< 7))
  | .manufacturer0 => (acc.1, acc.2.1, acc.2.2 ||| (1 <<< 0))
  | .manufacturer1 => (acc.1, acc.2.1, acc.2.2 ||| (1 <<< 1))
  | .manufacturer2 => (acc.1, acc.2.1, acc.2.2 ||| (1 <<< 2))
  | .manufacturer3 => (acc.1, acc.2.1, acc.2.2 ||| (1 <<< 3))
  | .manufacturer4 => (acc.1, acc.2.1, acc.2.2 ||| (1 <<< 4))
  | .manufacturer5 => (acc.1, acc.2.1, acc.2.2 ||| (1 <<< 5))
  | .manufacturer6 => (acc.1, acc.2.1, acc.2.2 ||| (1 <<< 6))

/-- `impl IntoBytes for Vec<EdidEstablishedTiming>`: the 3-byte bitmap. -/
def vecEdidEstablishedTimingIntoBytes (l : List EdidEstablishedTiming) : List Nat :=
  let t := l.foldl EdidEstablishedTiming.orBit (0, 0, 0)
  [t.1, t.2.1, t.2.2]

/-- `EdidStandardTimingRatio` with its wire encoding `16:10 = 0`,
`4:3 = 1`, `5:4 = 2`, `16:9 = 3`. -/
inductive EdidStandardTimingAspect
  | aspect16x10
  | aspect4x3
  | aspect5x4
  | aspect16x9
deriving DecidableEq, Repr

def EdidStandardTimingAspect.toRaw : EdidStandardTimingAspect → Nat
  | .aspect16x10 => 0
  | .aspect4x3 => 1
  | .aspect5x4 => 2
  | .aspect16x9 => 3

/-- `EdidStandardTiming`: horizontal size (validated `256..=2288` and a
multiple of 8) and refresh rate (validated `60..=123`). -/
structure EdidStandardTiming where
  x : Nat
  aspect : EdidStandardTimingAspect
  frequency : Nat
deriving DecidableEq, Repr

def EdidStandardTiming.valid (t : EdidStandardTiming) : Bool :=
  256 ≤ t.x && t.x ≤ 2288 && t.x % 8 = 0 && 60 ≤ t.frequency && t.frequency ≤ 123

/-- The two bytes of an occupied standard-timing slot (total form, used to
state what the encoder produces on valid entries). -/
def EdidStandardTiming.slotValue (t : EdidStandardTiming) : List Nat :=
  [t.x / 8 - 31, ((t.frequency - 60) % 64) ||| (t.aspect.toRaw <<< 6)]

/-- One occupied slot of `impl IntoBytes for Vec<EdidStandardTiming>`:
`(x / 8) - 31` must not underflow (a `u8` subtraction) and must fit a `u8`
(the `expect`); `frequency - 60` must not underflow either. -/
def EdidStandardTiming.slotBytes (t : EdidStandardTiming) : Option (List Nat) :=
  if 31 ≤ t.x / 8 && t.x / 8 - 31 ≤ 255 && 60 ≤ t.frequency then
    some t.slotValue
  else
    none

/-- Slot `i` of `impl IntoBytes for Vec<EdidStandardTiming>`: the present
entry's bytes, or the `0x01 0x01` filler for a missing one. -/
def stdTimingSlot (l : List EdidStandardTiming) (i : Nat) : Option (List Nat) :=
  match l[i]? with
  | some t => t.slotBytes
  | Option.none => some [0x01, 0x01]

/-- `impl IntoBytes for Vec<EdidStandardTiming>`: the loop
`for st_idx in 0..8`, each present entry encoded, each missing slot
`0x01 0x01`; entries past the eighth are never read. -/
def vecEdidStandardTimingIntoBytes (l : List EdidStandardTiming) : Option (List Nat) :=
  (encodeAll (stdTimingSlot l) (List.range 8)).map List.flatten

inductive EdidRelease
  | r3
  | r4
deriving DecidableEq, Repr

/-- The release-agnostic `Edid` record that both facades feed into
`Edid::into_bytes`. -/
structure Edid where
  release : EdidRelease
  manufacturer : EdidManufacturer
  productCode : Nat
  serialNumber : Option Nat
  date : EdidDate
  bdpf : EdidBasicDisplayParametersFeatures
  chromaCoord : EdidFilterChromaticity
  establishedTimings : List EdidEstablishedTiming
  standardTimings : List EdidStandardTiming
  descriptors : List EdidDescriptor
  extensions : List EdidExtension
deriving DecidableEq, Repr

/-- Field-wise validity of an `Edid` model: every component is a value its
smart constructor accepts. -/
def Edid.valid (e : Edid) : Bool :=
  e.manufacturer.valid && e.productCode ≤ 65535 &&
    (match e.serialNumber with
      | Option.none => true
      | some sn => sn ≤ 4294967295) &&
    e.date.valid && e.bdpf.valid && e.chromaCoord.valid &&
    e.standardTimings.all EdidStandardTiming.valid &&
    e.descriptors.all EdidDescriptor.valid &&
    e.extensions.all EdidExtension.valid

/-- The 127 bytes `Edid::into_bytes` accumulates before pushing the
checksum: header, identification, version, display parameters,
chromaticity, timing sections, descriptors, extension count. -/
def Edid.baseContent (e : Edid) : Option (List Nat) :=
  match e.manufacturer.intoBytes, e.date.intoBytes, e.bdpf.intoBytes,
      e.chromaCoord.intoBytes, vecEdidStandardTimingIntoBytes e.standardTimings,
      vecEdidDescriptorIntoBytes e.descriptors with
  | some man, some date, some bdpf, some chroma, some std, some desc =>
    if e.extensions.length ≤ 255 then
      some ([0x00, 0xff, 0xff, 0xff, 0xff, 0xff, 0xff, 0x00] ++ man ++
        edidProductCodeIntoBytes e.productCode ++
        (match e.serialNumber with
          | some sn => edidSerialNumberIntoBytes sn
          | Option.none => [0x00, 0x00, 0x00, 0x00]) ++
        date ++
        (match e.release with | .r3 => [1, 3] | .r4 => [1, 4]) ++
        bdpf ++ chroma ++
        vecEdidEstablishedTimingIntoBytes e.establishedTimings ++
        std ++ desc ++ [e.extensions.length])
    else
      none
  | _, _, _, _, _, _ => none

/-- `Edid::into_bytes`: the base content plus its checksum, then each
extension block, then the final 128-byte alignment assertion. -/
def Edid.intoBytes (e : Edid) : Option (List Nat) :=
  match e.baseContent, encodeAll EdidExtension.intoBytes e.extensions with
  | some base, some exts =>
    let out := base ++ [checksum base] ++ exts.flatten
    if out.length % 128 = 0 then some out else none
  | _, _ => none

/-- The `EdidRelease3` facade (its builder): same fields as `Edid` minus
the release tag, with R3-typed date, display parameters and descriptors. -/
structure EdidRelease3 where
  manufacturer : EdidManufacturer
  productCode : Nat
  serialNumber : Option Nat
  date : EdidManufactureDate
  displayParametersFeatures : EdidR3BasicDisplayParametersFeatures
  filterChromaticity : EdidFilterChromaticity
  establishedTimings : List EdidEstablishedTiming
  standardTimings : List EdidStandardTiming
  descriptors : List EdidR3Descriptor
  extensions : List EdidExtension
deriving DecidableEq, Repr

/-- The `EdidRelease3` builder's default established-timings list
(`#[builder(default = vec![EdidEstablishedTiming::ET_640_480_60hz])]`),
used when the caller supplies no list of its own. -/
def edidRelease3EstablishedTimingsDefault : List EdidEstablishedTiming :=
  [.et640x480x60]

/-- `From<EdidRelease3> for Edid`. -/
def EdidRelease3.toEdid (e : EdidRelease3) : Edid :=
  { release := .r3
    manufacturer := e.manufacturer
    productCode := e.productCode
    serialNumber := e.serialNumber
    date := .r3 e.date
    bdpf := .r3 e.displayParametersFeatures
    chromaCoord := e.filterChromaticity
    establishedTimings := e.establishedTimings
    standardTimings := e.standardTimings
    descriptors := e.descriptors.map EdidDescriptor.r3
    extensions := e.extensions }

def EdidRelease3.valid (e : EdidRelease3) : Bool :=
  e.toEdid.valid

/-- `impl IntoBytes for EdidRelease3` (via `Edid::from`). -/
def EdidRelease3.intoBytes (e : EdidRelease3) : Option (List Nat) :=
  e.toEdid.intoBytes

/-! ### Concrete models instantiating the theorems -/

/-- A minimal valid detailed timing: every count zero, 1 MHz pixel clock. -/
def tinyDTD : EdidDescriptorDetailedTiming :=
  { pixelClock := 10
    horizontal := { active := 0, frontPorch := 0, syncPulse := 0, backPorch := 0,
                    border := 0, sizeMm := 0 }
    vertical := { active := 0, frontPorch := 0, syncPulse := 0, backPorch := 0,
                  border := 0, sizeMm := 0 }
    interlace := false
    syncType := .analog (.composite false false)
    stereo := .none }

/-- A detailed timing whose fields all pass their smart constructors
(`border ≤ 255`, `front_porch ≤ 1023`, ...), yet whose derived sync offset
`border + front_porch = 255 + 1023 = 1278` exceeds 10 bits. -/
def overflowDTD : EdidDescriptorDetailedTiming :=
  { pixelClock := 74250
    horizontal := { active := 1280, frontPorch := 1023, syncPulse := 40, backPorch := 220,
                    border := 255, sizeMm := 509 }
    vertical := { active := 720, frontPorch := 5, syncPulse := 5, backPorch := 20,
                  border := 0, sizeMm := 286 }
    interlace := false
    syncType := .digital { kind := .separate { vsyncPositive := true },
                           hsyncPositive := true }
    stereo := .none }

/-- A 1280x720-style timing whose sync offset `2 + 300 = 302` exceeds 255,
exercising the high bits of bytes 8 and 11. -/
def syncOffsetDTD : EdidDescriptorDetailedTiming :=
  { pixelClock := 74250
    horizontal := { active := 1280, frontPorch := 300, syncPulse := 40, backPorch := 220,
                    border := 2, sizeMm := 509 }
    vertical := { active := 720, frontPorch := 5, syncPulse := 5, backPorch := 20,
                  border := 0, sizeMm := 286 }
    interlace := false
    syncType := .digital { kind := .separate { vsyncPositive := true },
                           hsyncPositive := true }
    stereo := .none }

/-- The bytes `syncOffsetDTD` encodes to. -/
def syncOffsetDTDBytes : List Nat :=
  (EdidDescriptorDetailedTiming.intoBytes syncOffsetDTD).getD []

/-- The string "XYZ Monitor" as its character codes. -/
def xyzMonitor : EdidDescriptorString :=
  { chars := [0x58, 0x59, 0x5a, 0x20, 0x4d, 0x6f, 0x6e, 0x69, 0x74, 0x6f, 0x72] }

/-- A valid 640-wide 4:3 standard timing. -/
def st640 : EdidStandardTiming :=
  { x := 640, aspect := .aspect4x3, frequency := 60 }

/-- Nine standard timings: one more than the eight slots of the section. -/
def nineTimings : List EdidStandardTiming :=
  List.replicate 9 st640

/-- The 16 bytes the standard-timings section encodes `nineTimings` to. -/
def nineTimingsBytes : List Nat :=
  (vecEdidStandardTimingIntoBytes nineTimings).getD []

/-- A CTA-861 extension carrying 84 LPCM short audio descriptors: every
field is a value its smart constructor accepts, yet the audio block is
`1 + 3 · 84 = 253` bytes, so the detailed-timing offset `4 + 253 = 257`
does not fit its `u8` byte. -/
def stereoLPCM : EdidExtensionCTA861AudioDataBlockLPCM :=
  { channels := 2, samplingFrequencies := [0], samplingRates := [0] }

def bigAudio : EdidExtensionCTA861Revision3 :=
  { ycbcr422Supported := false, ycbcr444Supported := false, audioSupported := false
    underscanItFormatsByDefault := false, nativeFormats := 0
    dataBlocks := [.audio { desc := List.replicate 84 stereoLPCM }]
    timings := [] }

/-- A CTA-861 extension with seven detailed timings: `4 + 7 · 18 = 130` raw
content bytes, three over the 127-byte budget. -/
def sevenTimings : EdidExtensionCTA861Revision3 :=
  { ycbcr422Supported := false, ycbcr444Supported := false, audioSupported := false
    underscanItFormatsByDefault := false, nativeFormats := 1
    dataBlocks := []
    timings := List.replicate 7 tinyDTD }

/-- The raw (pre-resize) content bytes of `sevenTimings`. -/
def sevenTimingsRaw : List Nat :=
  (EdidExtensionCTA861Revision3.rawContent sevenTimings).getD []

/-- An `EdidRelease3` model whose builder was handed the established-timings
list `[800x600@60]`, replacing the default. -/
def r3Custom : EdidRelease3 :=
  { manufacturer := { c0 := 65, c1 := 66, c2 := 67 }
    productCode := 1
    serialNumber := Option.none
    date := { week := Option.none, year := 1997 }
    displayParametersFeatures :=
      { videoInput := .digital { dfp1Compatible := false }
        size := .undefined
        displayTransferCharacteristic := .gamma 220
        featureSupport :=
          { standby := false, suspend := false, activeOffIsVeryLowPower := false
            displayType := .rgbColor, srgbDefaultColorSpace := false
            defaultGtfSupported := false } }
    filterChromaticity := .monoChrome { x := 0, y := 0 }
    establishedTimings := [.et800x600x60]
    standardTimings := []
    descriptors := [.detailedTiming tinyDTD]
    extensions := [.cta861 (.revision3 sevenTimings)] }

/-- The bytes `r3Custom` encodes to. -/
def r3CustomOut : List Nat :=
  (EdidRelease3.intoBytes r3Custom).getD []

/-- The same model with the builder's default established-timings list. -/
def r3Default : EdidRelease3 :=
  { r3Custom with establishedTimings := edidRelease3EstablishedTimingsDefault }

/-- The bytes `r3Default` encodes to. -/
def r3DefaultOut : List Nat :=
  (EdidRelease3.intoBytes r3Default).getD []

/-- The release-agnostic form of `r3Custom` (one extension block). -/
def extEdid : Edid :=
  r3Custom.toEdid

/-- The 256 bytes `extEdid` encodes to. -/
def extOut : List Nat :=
  (Edid.intoBytes extEdid).getD []

/-! ### General lemmas about the byte-vector helpers -/

theorem foldl_mod256_eq (l : List Nat) :
    ∀ s, s < 256 → l.foldl (fun s b => (s + b) % 256) s = (s + l.sum) % 256 := by
  induction l with
  | nil =>
    intro s hs
    simpa using (Nat.mod_eq_of_lt hs).symm
  | cons a l ih =>
    intro s hs
    simp only [List.foldl_cons, List.sum_cons]
    rw [ih _ (Nat.mod_lt _ (by omega))]
    omega

theorem wrapSum_eq_sum_mod (l : List Nat) : wrapSum l = l.sum % 256 := by
  simpa using foldl_mod256_eq l 0 (by omega)

theorem sum_append_checksum (l : List Nat) : (l ++ [checksum l]).sum % 256 = 0 := by
  simp only [checksum, wrapSum_eq_sum_mod, List.sum_append, List.sum_cons, List.sum_nil]
  omega

theorem length_listResize (l : List Nat) (n v : Nat) : (listResize l n v).length = n := by
  unfold listResize
  split <;> simp <;> omega

theorem encodeAll_length_eq {α : Type} (f : α → Option (List Nat)) :
    ∀ (l : List α) (parts : List (List Nat)),
      encodeAll f l = some parts → parts.length = l.length := by
  intro l
  induction l with
  | nil =>
    intro parts h
    simp only [encodeAll] at h
    cases h
    rfl
  | cons x xs ih =>
    intro parts h
    simp only [encodeAll] at h
    cases hx : f x <;> rw [hx] at h
    · exact absurd h (by simp)
    · cases hrest : encodeAll f xs <;> rw [hrest] at h
      · exact absurd h (by simp)
      · cases h
        simpa using ih _ hrest

theorem encodeAll_mem {α : Type} (f : α → Option (List Nat)) :
    ∀ (l : List α) (parts : List (List Nat)),
      encodeAll f l = some parts → ∀ p ∈ parts, ∃ x ∈ l, f x = some p := by
  intro l
  induction l with
  | nil =>
    intro parts h
    simp only [encodeAll] at h
    cases h
    simp
  | cons x xs ih =>
    intro parts h
    simp only [encodeAll] at h
    cases hx : f x <;> rw [hx] at h
    · exact absurd h (by simp)
    · cases hrest : encodeAll f xs <;> rw [hrest] at h
      · exact absurd h (by simp)
      · cases h
        intro p hp
        rcases List.mem_cons.mp hp with hp | hp
        · exact ⟨x, by simp, hp ▸ hx⟩
        · rcases ih _ hrest p hp with ⟨y, hy, hfy⟩
          exact ⟨y, by simp [hy], hfy⟩

theorem encodeAll_congr {α : Type} (f g : α → Option (List Nat)) :
    ∀ (l : List α), (∀ x ∈ l, f x = g x) → encodeAll f l = encodeAll g l := by
  intro l
  induction l with
  | nil => intro _; rfl
  | cons x xs ih =>
    intro h
    simp only [encodeAll]
    rw [h x (by simp), ih (fun y hy => h y (by simp [hy]))]

theorem encodeAll_eq_map {α : Type} (f : α → Option (List Nat)) (g : α → List Nat) :
    ∀ (l : List α), (∀ x ∈ l, f x = some (g x)) → encodeAll f l = some (l.map g) := by
  intro l
  induction l with
  | nil => intro _; rfl
  | cons x xs ih =>
    intro h
    simp only [encodeAll]
    rw [h x (by simp), ih (fun y hy => h y (by simp [hy]))]
    simp

theorem flatten_length_const {n : Nat} :
    ∀ (parts : List (List Nat)), (∀ p ∈ parts, p.length = n) →
      parts.flatten.length = n * parts.length := by
  intro parts
  induction parts with
  | nil => intro _; simp
  | cons p rest ih =>
    intro h
    simp only [List.flatten_cons, List.length_append, List.length_cons,
      h p (by simp), ih (fun q hq => h q (by simp [hq]))]
    ring

theorem flatten_chunk {n : Nat} :
    ∀ (parts : List (List Nat)), (∀ p ∈ parts, p.length = n) →
      ∀ i < parts.length, (parts.flatten.drop (n * i)).take n = parts.getD i [] := by
  intro parts
  induction parts with
  | nil => intro _ i hi; simp at hi
  | cons p rest ih =>
    intro h i hi
    match i with
    | 0 =>
      simp only [Nat.mul_zero, List.drop_zero, List.flatten_cons, List.getD_cons_zero]
      exact List.take_left' (h p (by simp))
    | j + 1 =>
      have hp : p.length = n := h p (by simp)
      simp only [List.flatten_cons, List.getD_cons_succ]
      rw [Nat.mul_succ, Nat.add_comm, ← List.drop_drop, List.drop_left' hp]
      exact ih (fun q hq => h q (by simp [hq])) j (by simpa using hi)

/-! ### Length facts for each section encoder -/

theorem EdidDescriptorString.length_intoBytes_string (s : EdidDescriptorString) (p : List Nat)
    (h : s.intoBytes = some p) : p.length = 13 := by
  unfold EdidDescriptorString.intoBytes at h
  split at h
  · cases h
    exact length_listResize ..
  · cases h

theorem EdidDescriptorCustom.length_intoBytes_custom (c : EdidDescriptorCustom) :
    c.intoBytes.length = 18 :=
  length_listResize ..

theorem EdidDescriptorDetailedTiming.length_intoBytes_dtd (d : EdidDescriptorDetailedTiming)
    (bs : List Nat) (h : d.intoBytes = some bs) : bs.length = 18 := by
  unfold EdidDescriptorDetailedTiming.intoBytes at h
  dsimp only at h
  split_ifs at h
  all_goals cases h
  rfl

theorem EdidDisplayRangeVideoTimingsGTF.length_supportBytes_gtf
    (g : EdidDisplayRangeVideoTimingsGTF) (bs : List Nat)
    (h : g.supportBytes = some bs) : bs.length = 8 := by
  unfold EdidDisplayRangeVideoTimingsGTF.supportBytes at h
  split at h
  all_goals cases h
  rfl

theorem EdidR3DisplayRangeLimits.length_intoBytes_r3drl (d : EdidR3DisplayRangeLimits)
    (bs : List Nat) (h : d.intoBytes = some bs) : bs.length = 13 := by
  obtain ⟨hf, vf, mp, ts⟩ := d
  unfold EdidR3DisplayRangeLimits.intoBytes at h
  cases hp : pixelClockIntoRaw mp <;> rw [hp] at h
  · cases h
  · cases ts with
    | defaultGTF =>
      dsimp only at h
      cases h
      rfl
    | secondaryGTF g =>
      dsimp only at h
      cases hs : g.supportBytes <;> rw [hs] at h
      · cases h
      · cases h
        have := EdidDisplayRangeVideoTimingsGTF.length_supportBytes_gtf g _ hs
        simp [this]

theorem EdidR4DisplayRangeLimits.length_supportBytes_r4drl (d : EdidR4DisplayRangeLimits)
    (bs : List Nat) (h : d.supportBytes = some bs) : bs.length = 8 := by
  unfold EdidR4DisplayRangeLimits.supportBytes at h
  split at h
  · cases h; simp
  · cases h; simp
  · exact EdidDisplayRangeVideoTimingsGTF.length_supportBytes_gtf _ _ h
  · split at h
    · cases h
    · cases h; simp

theorem EdidR4DisplayRangeLimits.length_intoBytes_r4drl (d : EdidR4DisplayRangeLimits)
    (bs : List Nat) (h : d.intoBytes = some bs) : bs.length = 14 := by
  unfold EdidR4DisplayRangeLimits.intoBytes at h
  split at h
  · rename_i pclk support hp hs
    cases h
    have := d.length_supportBytes_r4drl support hs
    simp [this]
  · cases h

theorem length_etIIIArray (ids : List Nat) : (etIIIArray ids).length = 6 := by
  unfold etIIIArray
  generalize hinit : List.replicate 6 (0 : Nat) = arr
  have hlen : arr.length = 6 := by simp [← hinit]
  clear hinit
  induction ids generalizing arr with
  | nil => simpa using hlen
  | cons a rest ih =>
    simp only [List.foldl_cons]
    exact ih _ (by simp [hlen])

theorem EdidR4DescriptorEstablishedTimings.length_intoBytes_etIII
    (e : EdidR4DescriptorEstablishedTimings) (p : List Nat)
    (h : e.intoBytes = some p) : p.length = 13 := by
  unfold EdidR4DescriptorEstablishedTimings.intoBytes at h
  split at h
  · cases h
    simp [length_etIIIArray]
  · cases h

theorem EdidR3Descriptor.length_intoBytes_r3desc (d : EdidR3Descriptor) (bs : List Nat)
    (h : d.intoBytes = some bs) : bs.length = 18 := by
  cases d <;> simp only [EdidR3Descriptor.intoBytes] at h
  case detailedTiming dtd => exact dtd.length_intoBytes_dtd bs h
  case custom c =>
    cases h
    exact c.length_intoBytes_custom
  case dummy =>
    cases h
    rfl
  case standardTimings => cases h
  case colorPointData => cases h
  case productName v =>
    rcases Option.map_eq_some'.mp h with ⟨p, hp, rfl⟩
    simp [v.length_intoBytes_string p hp]
  case displayRangeLimits drl =>
    rcases Option.map_eq_some'.mp h with ⟨p, hp, rfl⟩
    simp [drl.length_intoBytes_r3drl p hp]
  case dataString v =>
    rcases Option.map_eq_some'.mp h with ⟨p, hp, rfl⟩
    simp [v.length_intoBytes_string p hp]
  case productSerialNumber v =>
    rcases Option.map_eq_some'.mp h with ⟨p, hp, rfl⟩
    simp [v.length_intoBytes_string p hp]

theorem EdidR4Descriptor.length_intoBytes_r4desc (d : EdidR4Descriptor) (bs : List Nat)
    (h : d.intoBytes = some bs) : bs.length = 18 := by
  cases d <;> simp only [EdidR4Descriptor.intoBytes] at h
  case detailedTiming dtd => exact dtd.length_intoBytes_dtd bs h
  case custom c =>
    cases h
    exact c.length_intoBytes_custom
  case dummy =>
    cases h
    rfl
  case establishedTimings et =>
    rcases Option.map_eq_some'.mp h with ⟨p, hp, rfl⟩
    simp [et.length_intoBytes_etIII p hp]
  case cvt => cases h
  case displayColorManagement => cases h
  case standardTimings => cases h
  case colorPointData => cases h
  case productName v =>
    rcases Option.map_eq_some'.mp h with ⟨p, hp, rfl⟩
    simp [v.length_intoBytes_string p hp]
  case displayRangeLimits drl =>
    rcases Option.map_eq_some'.mp h with ⟨p, hp, rfl⟩
    simp [drl.length_intoBytes_r4drl p hp]
  case dataString v =>
    rcases Option.map_eq_some'.mp h with ⟨p, hp, rfl⟩
    simp [v.length_intoBytes_string p hp]
  case productSerialNumber v =>
    rcases Option.map_eq_some'.mp h with ⟨p, hp, rfl⟩
    simp [v.length_intoBytes_string p hp]

theorem EdidDescriptor.length_intoBytes_desc (d : EdidDescriptor) (bs : List Nat)
    (h : d.intoBytes = some bs) : bs.length = 18 := by
  cases d
  case r3 d => exact d.length_intoBytes_r3desc bs h
  case r4 d => exact d.length_intoBytes_r4desc bs h

theorem length_vecEdidDescriptorIntoBytes (l : List EdidDescriptor) (bs : List Nat)
    (h : vecEdidDescriptorIntoBytes l = some bs) : bs.length = 72 := by
  unfold vecEdidDescriptorIntoBytes at h
  cases he : encodeAll EdidDescriptor.intoBytes l <;> rw [he] at h
  · cases h
  · dsimp only at h
    split at h
    · cases h
      assumption
    · cases h

theorem stdTimingSlot_length (l : List EdidStandardTiming) (i : Nat) (p : List Nat)
    (h : stdTimingSlot l i = some p) : p.length = 2 := by
  unfold stdTimingSlot at h
  split at h
  · rename_i t _
    unfold EdidStandardTiming.slotBytes at h
    split at h
    · cases h
      rfl
    · cases h
  · cases h
    rfl

theorem length_vecEdidStandardTimingIntoBytes (l : List EdidStandardTiming) (bs : List Nat)
    (h : vecEdidStandardTimingIntoBytes l = some bs) : bs.length = 16 := by
  unfold vecEdidStandardTimingIntoBytes at h
  rcases Option.map_eq_some'.mp h with ⟨parts, hp, rfl⟩
  have hlen := encodeAll_length_eq _ _ _ hp
  have hall : ∀ p ∈ parts, p.length = 2 := by
    intro p hpp
    rcases encodeAll_mem _ _ _ hp p hpp with ⟨i, _, hf⟩
    exact stdTimingSlot_length l i p hf
  rw [flatten_length_const parts hall, hlen]
  simp

theorem EdidManufacturer.length_intoBytes_man (m : EdidManufacturer) (bs : List Nat)
    (h : m.intoBytes = some bs) : bs.length = 2 := by
  unfold EdidManufacturer.intoBytes at h
  split at h
  · cases h
    rfl
  · cases h

theorem EdidManufactureDate.length_intoBytes_mdate (d : EdidManufactureDate) (bs : List Nat)
    (h : d.intoBytes = some bs) : bs.length = 2 := by
  unfold EdidManufactureDate.intoBytes at h
  split at h
  · cases h
    rfl
  · cases h

theorem EdidR4ManufactureDate.length_intoBytes_r4mdate (d : EdidR4ManufactureDate) (bs : List Nat)
    (h : d.intoBytes = some bs) : bs.length = 2 := by
  unfold EdidR4ManufactureDate.intoBytes at h
  split at h
  · cases h
    rfl
  · cases h

theorem EdidR4ModelDate.length_intoBytes_r4modeld (d : EdidR4ModelDate) (bs : List Nat)
    (h : d.intoBytes = some bs) : bs.length = 2 := by
  unfold EdidR4ModelDate.intoBytes at h
  split at h
  · cases h
    rfl
  · cases h

theorem EdidDate.length_intoBytes_date (d : EdidDate) (bs : List Nat)
    (h : d.intoBytes = some bs) : bs.length = 2 := by
  rcases d with d | d
  · exact d.length_intoBytes_mdate bs h
  · rcases d with d | d
    · exact d.length_intoBytes_r4mdate bs h
    · exact d.length_intoBytes_r4modeld bs h

theorem EdidR3VideoInputDefinition.length_intoBytes_r3vin (v : EdidR3VideoInputDefinition) :
    v.intoBytes.length = 1 := by
  rcases v with v | v <;> rfl

theorem EdidR4VideoInputDefinition.length_intoBytes_r4vin (v : EdidR4VideoInputDefinition) :
    v.intoBytes.length = 1 := by
  rcases v with v | v <;> rfl

theorem EdidDisplayTransferCharacteristics.length_intoBytes_dtc
    (g : EdidDisplayTransferCharacteristics) (bs : List Nat)
    (h : g.intoBytes = some bs) : bs.length = 1 := by
  rcases g with c | _
  · simp only [EdidDisplayTransferCharacteristics.intoBytes] at h
    split at h
    · cases h
      rfl
    · cases h
  · cases h
    rfl

theorem EdidR3ImageSize.length_intoBytes_r3size (s : EdidR3ImageSize) :
    s.intoBytes.length = 2 := by
  rcases s with c | _ <;> rfl

theorem EdidR4ImageSize.length_intoBytes_r4size (s : EdidR4ImageSize) (bs : List Nat)
    (h : s.intoBytes = some bs) : bs.length = 2 := by
  rcases s with c | c | c | _
  · simp only [EdidR4ImageSize.intoBytes] at h
    split at h
    · cases h
      rfl
    · cases h
  · simp only [EdidR4ImageSize.intoBytes] at h
    split at h
    · cases h
      rfl
    · cases h
  · cases h
    rfl
  · cases h
    rfl

theorem EdidR3FeatureSupport.length_intoBytes_r3feat (f : EdidR3FeatureSupport) :
    f.intoBytes.length = 1 :=
  rfl

theorem EdidR4FeatureSupport.length_intoBytes_r4feat (f : EdidR4FeatureSupport) :
    f.intoBytes.length = 1 :=
  rfl

theorem EdidBasicDisplayParametersFeatures.length_intoBytes_bdpf
    (b : EdidBasicDisplayParametersFeatures) (bs : List Nat)
    (h : b.intoBytes = some bs) : bs.length = 5 := by
  rcases b with b | b
  · simp only [EdidBasicDisplayParametersFeatures.intoBytes,
      EdidR3BasicDisplayParametersFeatures.intoBytes] at h
    cases hg : b.displayTransferCharacteristic.intoBytes <;> rw [hg] at h
    · cases h
    · cases h
      have h1 := b.videoInput.length_intoBytes_r3vin
      have h2 := EdidDisplayTransferCharacteristics.length_intoBytes_dtc _ _ hg
      have h3 := b.size.length_intoBytes_r3size
      have h4 := b.featureSupport.length_intoBytes_r3feat
      simp [List.length_append, h1, h2, h3, h4]
  · simp only [EdidBasicDisplayParametersFeatures.intoBytes,
      EdidR4BasicDisplayParametersFeatures.intoBytes] at h
    cases hs : b.size.intoBytes <;> rw [hs] at h
    · cases h
    · cases hg : b.displayTransferCharacteristic.intoBytes <;> rw [hg] at h
      · cases h
      · cases h
        have h1 := b.videoInput.length_intoBytes_r4vin
        have h2 := EdidDisplayTransferCharacteristics.length_intoBytes_dtc _ _ hg
        have h3 := EdidR4ImageSize.length_intoBytes_r4size _ _ hs
        have h4 := b.featureSupport.length_intoBytes_r4feat
        simp [List.length_append, h1, h2, h3, h4]

theorem EdidFilterChromaticity.length_intoBytes_chroma (c : EdidFilterChromaticity) (bs : List Nat)
    (h : c.intoBytes = some bs) : bs.length = 10 := by
  rcases c with w | p
  · simp only [EdidFilterChromaticity.intoBytes] at h
    split at h
    · cases h
      rfl
    · cases h
  · simp only [EdidFilterChromaticity.intoBytes] at h
    split at h
    · cases h
      rfl
    · cases h

theorem length_vecEdidEstablishedTimingIntoBytes (l : List EdidEstablishedTiming) :
    (vecEdidEstablishedTimingIntoBytes l).length = 3 :=
  rfl

/-- Index and length facts for the twelve concatenated sections of the
base block (header, manufacturer, product code, serial, date, version,
display parameters, chromaticity, established timings, standard timings,
descriptors, extension count). -/
theorem sections_facts (s1 s2 s3 s4 s5 s6 s7 s8 s9 s10 s11 : List Nat) (n : Nat)
    (h1 : s1.length = 8) (h2 : s2.length = 2) (h3 : s3.length = 2) (h4 : s4.length = 4)
    (h5 : s5.length = 2) (h6 : s6.length = 2) (h7 : s7.length = 5) (h8 : s8.length = 10)
    (h9 : s9.length = 3) (h10 : s10.length = 16) (h11 : s11.length = 72) :
    (s1 ++ s2 ++ s3 ++ s4 ++ s5 ++ s6 ++ s7 ++ s8 ++ s9 ++ s10 ++ s11 ++ [n]).length = 127 ∧
      (s1 ++ s2 ++ s3 ++ s4 ++ s5 ++ s6 ++ s7 ++ s8 ++ s9 ++ s10 ++ s11 ++ [n])[126]? =
        some n ∧
      (s1 ++ s2 ++ s3 ++ s4 ++ s5 ++ s6 ++ s7 ++ s8 ++ s9 ++ s10 ++ s11 ++ [n])[35]? =
        s9[0]? := by
  have hx1 : (s1 ++ s2 ++ s3 ++ s4 ++ s5 ++ s6 ++ s7 ++ s8 ++ s9 ++ s10 ++ s11).length = 126 := by
    simp [List.length_append, h1, h2, h3, h4, h5, h6, h7, h8, h9, h10, h11]
  have hx2 : (s1 ++ s2 ++ s3 ++ s4 ++ s5 ++ s6 ++ s7 ++ s8 ++ s9 ++ s10).length = 54 := by
    simp [List.length_append, h1, h2, h3, h4, h5, h6, h7, h8, h9, h10]
  have hx3 : (s1 ++ s2 ++ s3 ++ s4 ++ s5 ++ s6 ++ s7 ++ s8 ++ s9).length = 38 := by
    simp [List.length_append, h1, h2, h3, h4, h5, h6, h7, h8, h9]
  have hx4 : (s1 ++ s2 ++ s3 ++ s4 ++ s5 ++ s6 ++ s7 ++ s8).length = 35 := by
    simp [List.length_append, h1, h2, h3, h4, h5, h6, h7, h8]
  refine ⟨?_, ?_, ?_⟩
  · simp [List.length_append, h1, h2, h3, h4, h5, h6, h7, h8, h9, h10, h11]
  · rw [← hx1, List.getElem?_concat_length]
  · rw [List.getElem?_append_left (by rw [hx1]; norm_num),
      List.getElem?_append_left (by rw [hx2]; norm_num),
      List.getElem?_append_left (by rw [hx3]; norm_num),
      List.getElem?_append_right (by rw [hx4]), hx4]

theorem Edid.baseContent_facts (e : Edid) (cs : List Nat) (h : e.baseContent = some cs) :
    cs.length = 127 ∧ cs[126]? = some e.extensions.length ∧
      cs[35]? = some (e.establishedTimings.foldl EdidEstablishedTiming.orBit (0, 0, 0)).1 := by
  unfold Edid.baseContent at h
  cases hman : e.manufacturer.intoBytes <;> rw [hman] at h <;> try cases h
  cases hdate : e.date.intoBytes <;> rw [hdate] at h <;> try cases h
  cases hbdpf : e.bdpf.intoBytes <;> rw [hbdpf] at h <;> try cases h
  cases hchroma : e.chromaCoord.intoBytes <;> rw [hchroma] at h <;> try cases h
  cases hstd : vecEdidStandardTimingIntoBytes e.standardTimings <;> rw [hstd] at h <;>
    try cases h
  cases hdesc : vecEdidDescriptorIntoBytes e.descriptors <;> rw [hdesc] at h <;> try cases h
  rename_i man date bdpf chroma std desc
  dsimp only at h
  split at h
  case isFalse => cases h
  case isTrue hn =>
  cases h
  have lman := EdidManufacturer.length_intoBytes_man _ _ hman
  have ldate := EdidDate.length_intoBytes_date _ _ hdate
  have lbdpf := EdidBasicDisplayParametersFeatures.length_intoBytes_bdpf _ _ hbdpf
  have lchroma := EdidFilterChromaticity.length_intoBytes_chroma _ _ hchroma
  have lstd := length_vecEdidStandardTimingIntoBytes _ _ hstd
  have ldesc := length_vecEdidDescriptorIntoBytes _ _ hdesc
  have lsn : (match e.serialNumber with
      | some sn => edidSerialNumberIntoBytes sn
      | Option.none => [0x00, 0x00, 0x00, 0x00]).length = 4 := by
    cases e.serialNumber <;> rfl
  have lver : (match e.release with
      | EdidRelease.r3 => [1, 3]
      | EdidRelease.r4 => [1, 4]).length = 2 := by
    cases e.release <;> rfl
  have hfacts := sections_facts [0x00, 0xff, 0xff, 0xff, 0xff, 0xff, 0xff, 0x00] man
    (edidProductCodeIntoBytes e.productCode)
    (match e.serialNumber with
      | some sn => edidSerialNumberIntoBytes sn
      | Option.none => [0x00, 0x00, 0x00, 0x00])
    date
    (match e.release with | EdidRelease.r3 => [1, 3] | EdidRelease.r4 => [1, 4])
    bdpf chroma (vecEdidEstablishedTimingIntoBytes e.establishedTimings) std desc
    e.extensions.length rfl lman rfl lsn ldate lver lbdpf lchroma
    (length_vecEdidEstablishedTimingIntoBytes _) lstd ldesc
  exact ⟨hfacts.1, hfacts.2.1, hfacts.2.2⟩

/-! ### Length facts for the CTA-861 data blocks -/

theorem EdidExtensionCTA861AudioDataBlock.length_intoBytes_audio
    (b : EdidExtensionCTA861AudioDataBlock) (bs : List Nat)
    (h : b.intoBytes = some bs) : bs.length = b.size := by
  unfold EdidExtensionCTA861AudioDataBlock.intoBytes at h
  split at h
  · cases h
    have hparts : ∀ p ∈ b.desc.map EdidExtensionCTA861AudioDataBlockLPCM.descBytes,
        p.length = 3 := by
      intro p hp
      rcases List.mem_map.mp hp with ⟨d, _, rfl⟩
      rfl
    simp only [List.length_cons, flatten_length_const _ hparts, List.length_map,
      EdidExtensionCTA861AudioDataBlock.size]
    omega
  · cases h

theorem EdidExtensionCTA861VideoDataBlock.length_intoBytes_video
    (b : EdidExtensionCTA861VideoDataBlock) (bs : List Nat)
    (h : b.intoBytes = some bs) : bs.length = b.size := by
  unfold EdidExtensionCTA861VideoDataBlock.intoBytes at h
  split at h
  · cases h
    simp only [List.length_cons, List.length_map, EdidExtensionCTA861VideoDataBlock.size]
    omega
  · cases h

theorem EdidExtensionCTA861HdmiDataBlock.length_intoBytes_hdmi
    (b : EdidExtensionCTA861HdmiDataBlock) (bs : List Nat)
    (h : b.intoBytes = some bs) : bs.length = b.size := by
  unfold EdidExtensionCTA861HdmiDataBlock.intoBytes at h
  split at h
  case isFalse => cases h
  case isTrue =>
  unfold EdidExtensionCTA861HdmiDataBlock.size
  cases hv : b.video with
  | none =>
    cases ht : b.maxTmdsRateMhz with
    | none =>
      simp only [hv, ht] at h ⊢
      cases hf : b.anyFlag <;> simp only [hf] at h ⊢ <;>
        norm_num [listResize] at h <;> subst_vars <;> simp
    | some r =>
      simp only [hv, ht] at h ⊢
      norm_num [listResize] at h
      by_cases hle : divRoundUp r 5 ≤ 255
      · simp only [hle, ite_true] at h
        norm_num at h
        subst_vars
        simp only [List.length_cons, List.length_nil, List.length_set,
          List.length_append, List.length_replicate]
      · simp only [hle, ite_false] at h
        simp at h
  | some v =>
    cases ht : b.maxTmdsRateMhz with
    | none =>
      simp only [hv, ht] at h ⊢
      norm_num [listResize] at h
      by_cases hvl : v.vics.length ≤ 255
      · simp only [hvl, ite_true] at h
        norm_num at h
        subst_vars
        simp only [List.length_cons, List.length_nil, List.length_set,
          List.length_append, List.length_replicate]
        omega
      · simp only [hvl, ite_false] at h
        simp at h
    | some r =>
      simp only [hv, ht] at h ⊢
      norm_num [listResize] at h
      by_cases hle : divRoundUp r 5 ≤ 255
      · simp only [hle, ite_true] at h
        by_cases hvl : v.vics.length ≤ 255
        · simp only [hvl, ite_true] at h
          norm_num at h
          subst_vars
          simp only [List.length_cons, List.length_nil, List.length_set,
            List.length_append, List.length_replicate]
          omega
        · simp only [hvl, ite_false] at h
          simp at h
      · simp only [hle, ite_false] at h
        simp at h

theorem EdidExtensionCTA861Revision3DataBlock.length_intoBytes_cblock
    (b : EdidExtensionCTA861Revision3DataBlock) (bs : List Nat)
    (h : b.intoBytes = some bs) : bs.length = b.size := by
  cases b
  case audio b => exact b.length_intoBytes_audio bs h
  case speakerAllocation b =>
    cases h
    rfl
  case colorimetry b =>
    cases h
    rfl
  case video b => exact b.length_intoBytes_video bs h
  case hdmi b => exact b.length_intoBytes_hdmi bs h
  case videoCapability b =>
    cases h
    rfl

/-! ### Structure of the encoded blocks -/

theorem EdidExtensionCTA861Revision3.intoBytes_structure_cta
    (e : EdidExtensionCTA861Revision3) (bs : List Nat) (h : e.intoBytes = some bs) :
    ∃ cb, bs = cb ++ [checksum cb] ∧ cb.length = 127 := by
  unfold EdidExtensionCTA861Revision3.intoBytes at h
  rcases Option.map_eq_some'.mp h with ⟨content, hc, rfl⟩
  refine ⟨content, rfl, ?_⟩
  unfold EdidExtensionCTA861Revision3.content at hc
  rcases Option.map_eq_some'.mp hc with ⟨raw, _, rfl⟩
  exact length_listResize ..

theorem EdidExtension.intoBytes_structure_ext (x : EdidExtension) (bs : List Nat)
    (h : x.intoBytes = some bs) :
    ∃ cb, bs = cb ++ [checksum cb] ∧ cb.length = 127 := by
  rcases x with ⟨e⟩
  rcases e with ⟨e⟩
  exact e.intoBytes_structure_cta bs h

/-- Success decomposition of `Edid::into_bytes`: the output is the 127-byte
base content, its checksum, then the extension blocks, each itself a
127-byte content followed by its checksum. -/
theorem Edid.intoBytes_structure_edid (e : Edid) (out : List Nat) (h : e.intoBytes = some out) :
    ∃ base exts, e.baseContent = some base ∧
      encodeAll EdidExtension.intoBytes e.extensions = some exts ∧
      out = base ++ [checksum base] ++ exts.flatten ∧ base.length = 127 ∧
      exts.length = e.extensions.length ∧
      ∀ bl ∈ exts, ∃ cb, bl = cb ++ [checksum cb] ∧ cb.length = 127 := by
  unfold Edid.intoBytes at h
  cases hb : e.baseContent <;> rw [hb] at h
  · cases h
  · cases hx : encodeAll EdidExtension.intoBytes e.extensions <;> rw [hx] at h
    · cases h
    · rename_i base exts
      dsimp only at h
      split at h
      · cases h
        refine ⟨base, exts, rfl, rfl, rfl, (e.baseContent_facts base hb).1,
          encodeAll_length_eq _ _ _ hx, ?_⟩
        intro bl hbl
        rcases encodeAll_mem _ _ _ hx bl hbl with ⟨x, _, hfx⟩
        exact x.intoBytes_structure_ext bl hfx
      · cases h

/-- The block view of a successful `Edid::into_bytes` run: a list of
`1 + |extensions|` blocks, each of the form `content ++ [checksum content]`
with 127-byte contents, whose concatenation is the output. -/
theorem Edid.intoBytes_blocks (e : Edid) (out : List Nat) (h : e.intoBytes = some out) :
    ∃ cs : List (List Nat),
      out = (cs.map (fun cb => cb ++ [checksum cb])).flatten ∧
      cs.length = 1 + e.extensions.length ∧ (∀ cb ∈ cs, cb.length = 127) ∧
      e.baseContent = some (cs.getD 0 []) := by
  rcases e.intoBytes_structure_edid out h with
    ⟨base, exts, hb, _, hout, hblen, hextlen, hexts⟩
  refine ⟨base :: exts.map (fun bl => bl.take 127), ?_, ?_, ?_, ?_⟩
  · have hmap : exts.map ((fun cb => cb ++ [checksum cb]) ∘ (fun bl => bl.take 127)) =
        exts.map id := by
      apply List.map_congr_left
      intro bl hbl
      rcases hexts bl hbl with ⟨cb, rfl, hcb⟩
      simp [List.take_left' hcb]
    simp only [List.map_cons, List.flatten_cons, ← List.map_map] at hmap ⊢
    rw [hmap, List.map_id]
    simpa [List.append_assoc] using hout
  · simp only [List.length_cons, List.length_map, hextlen]
    omega
  · intro cb hcb
    rcases List.mem_cons.mp hcb with rfl | hcb
    · exact hblen
    · rcases List.mem_map.mp hcb with ⟨bl, hbl, rfl⟩
      rcases hexts bl hbl with ⟨c2, rfl, hc2⟩
      simp [List.take_left' hc2, hc2]
  · simpa using hb

/-! ### Pointwise lemmas used by the claim theorems -/

theorem encodeAll_get {α : Type} (f : α → Option (List Nat)) :
    ∀ (l : List α) (parts : List (List Nat)), encodeAll f l = some parts →
      ∀ (i : Nat) (x : α), l[i]? = some x → ∃ p, parts[i]? = some p ∧ f x = some p := by
  intro l
  induction l with
  | nil =>
    intro parts _ i x hx
    simp at hx
  | cons a as ih =>
    intro parts h i x hx
    unfold encodeAll at h
    cases hfa : f a <;> rw [hfa] at h
    · cases h
    · cases hr : encodeAll f as <;> rw [hr] at h
      · cases h
      · rename_i b rest
        dsimp only at h
        cases h
        match i with
        | 0 =>
          simp only [List.getElem?_cons_zero, Option.some.injEq] at hx
          exact ⟨b, by simp, hx ▸ hfa⟩
        | j + 1 =>
          simp only [List.getElem?_cons_succ] at hx
          simpa only [List.getElem?_cons_succ] using ih _ hr j x hx

theorem cvtFold_testBit (k : Nat) (l : List EdidR4DisplayRangeVideoTimingsAspect) :
    ∀ acc : Nat,
      (l.foldl (fun byte a => byte ||| (1 <<< (7 - a.toRaw))) acc).testBit k =
        (acc.testBit k || l.any (fun a => 7 - a.toRaw == k)) := by
  induction l with
  | nil =>
    intro acc
    simp
  | cons a as ih =>
    intro acc
    simp only [List.foldl_cons, List.any_cons, ih, Nat.testBit_or]
    rw [Nat.one_shiftLeft, Nat.testBit_two_pow]
    cases hacc : acc.testBit k <;> cases hb : (7 - a.toRaw == k) <;>
      simp_all [Bool.or_assoc]

theorem cvtSupportedAspectsByte_testBit (r : EdidR4DisplayRangeVideoTimingsAspect)
    (l : List EdidR4DisplayRangeVideoTimingsAspect) :
    ((cvtSupportedAspectsByte l).testBit (7 - r.toRaw) = true) ↔ r ∈ l := by
  unfold cvtSupportedAspectsByte
  rw [cvtFold_testBit]
  simp only [Nat.zero_testBit, Bool.false_or, List.any_eq_true, beq_iff_eq]
  constructor
  · rintro ⟨a, ha, he⟩
    have har : a = r := by
      cases a <;> cases r <;>
        simp_all [EdidR4DisplayRangeVideoTimingsAspect.toRaw]
    exact har ▸ ha
  · intro hr
    exact ⟨r, hr, rfl⟩

theorem etFold_fst_testBit5 (l : List EdidEstablishedTiming) :
    ∀ acc : Nat × Nat × Nat,
      ((l.foldl EdidEstablishedTiming.orBit acc).1).testBit 5 =
        (acc.1.testBit 5 || decide (EdidEstablishedTiming.et640x480x60 ∈ l)) := by
  induction l with
  | nil =>
    intro acc
    simp
  | cons t ts ih =>
    intro acc
    simp only [List.foldl_cons, ih]
    cases t <;>
      simp [EdidEstablishedTiming.orBit, Nat.testBit_or, List.mem_cons,
        Bool.decide_or, Bool.or_assoc,
        (by decide : Nat.testBit 1 5 = false), (by decide : Nat.testBit 2 5 = false),
        (by decide : Nat.testBit 4 5 = false), (by decide : Nat.testBit 8 5 = false),
        (by decide : Nat.testBit 16 5 = false), (by decide : Nat.testBit 32 5 = true),
        (by decide : Nat.testBit 64 5 = false), (by decide : Nat.testBit 128 5 = false)]

/-! ### The claims -/

/-- C1: for every model that encodes successfully, every 128-byte block of
`Edid::into_bytes`' output sums to 0 modulo 256, and equals its first 127
bytes followed by their checksum `(256 - (sum mod 256)) mod 256` — the base
block and every CTA-861 extension block alike. -/
theorem C1_block_checksums (e : Edid) (out : List Nat) (h : e.intoBytes = some out) :
    ∀ i < 1 + e.extensions.length,
      ((out.drop (128 * i)).take 128).sum % 256 = 0 ∧
      (out.drop (128 * i)).take 128 =
        (out.drop (128 * i)).take 127 ++ [checksum ((out.drop (128 * i)).take 127)] := by
  rcases e.intoBytes_blocks out h with ⟨cs, hout, hlen, hall, _⟩
  intro i hi
  have hi' : i < cs.length := by omega
  have hblocks : ∀ bl ∈ cs.map (fun cb => cb ++ [checksum cb]), bl.length = 128 := by
    intro bl hbl
    rcases List.mem_map.mp hbl with ⟨cb, hcb, rfl⟩
    simp [hall cb hcb]
  have hchunk := @flatten_chunk 128 (cs.map (fun cb => cb ++ [checksum cb])) hblocks i
    (by simpa using hi')
  rw [← hout] at hchunk
  have hgd : (cs.map (fun cb => cb ++ [checksum cb])).getD i [] =
      cs[i] ++ [checksum cs[i]] := by
    simp [List.getD_eq_getElem?_getD, List.getElem?_map, List.getElem?_eq_getElem hi']
  rw [hgd] at hchunk
  have hmem : cs[i] ∈ cs := List.getElem_mem hi'
  have htake : (out.drop (128 * i)).take 127 = cs[i] := by
    have h1 : (out.drop (128 * i)).take 127 = ((out.drop (128 * i)).take 128).take 127 := by
      rw [List.take_take]
      norm_num
    rw [h1, hchunk]
    exact List.take_left' (hall cs[i] hmem)
  refine ⟨?_, ?_⟩
  · rw [hchunk]
    exact sum_append_checksum cs[i]
  · rw [hchunk, htake]

/-- C1 witness: the second block (the CTA-861 extension) of the concrete
two-block model `extEdid`. -/
theorem C1_block_checksums_witness :
    ((extOut.drop (128 * 1)).take 128).sum % 256 = 0 ∧
      (extOut.drop (128 * 1)).take 128 =
        (extOut.drop (128 * 1)).take 127 ++ [checksum ((extOut.drop (128 * 1)).take 127)] :=
  C1_block_checksums extEdid extOut rfl 1 (by decide)

/-- C2: for every model that encodes successfully, the output is exactly
`128 * (1 + |extensions|)` bytes long — in particular a multiple of 128 —
and byte 126 of the base block is the extension count. -/
theorem C2_output_length (e : Edid) (out : List Nat) (h : e.intoBytes = some out) :
    out.length = 128 * (1 + e.extensions.length) ∧ out.length % 128 = 0 ∧
      out[126]? = some e.extensions.length := by
  rcases e.intoBytes_structure_edid out h with ⟨base, exts, hb, _, hout, hblen, hextlen, hexts⟩
  have hbllen : ∀ bl ∈ exts, bl.length = 128 := by
    intro bl hbl
    rcases hexts bl hbl with ⟨cb, rfl, hcb⟩
    simp [hcb]
  have hflat : exts.flatten.length = 128 * exts.length := flatten_length_const exts hbllen
  have h1 : out.length = 128 * (1 + e.extensions.length) := by
    rw [hout]
    simp only [List.length_append, List.length_cons, List.length_nil, hblen, hflat, hextlen]
    ring
  refine ⟨h1, ?_, ?_⟩
  · rw [h1]
    exact Nat.mul_mod_right 128 _
  · rw [hout, List.getElem?_append_left (by simp [hblen]),
      List.getElem?_append_left (by rw [hblen]; norm_num)]
    exact (e.baseContent_facts base hb).2.1

/-- C2 witness: the concrete model `extEdid` with one extension encodes to
256 bytes whose byte 126 is 1. -/
theorem C2_output_length_witness :
    extOut.length = 128 * (1 + extEdid.extensions.length) ∧ extOut.length % 128 = 0 ∧
      extOut[126]? = some extEdid.extensions.length :=
  C2_output_length extEdid extOut rfl

/-- C3: the claim fails at `k = 0`. `last_idx` is initialised to `0` and never
updated for an empty descriptor list, so the padding loop `last_idx..3` pushes
only three Dummy descriptors (54 bytes); the encoder's own
`assert_eq!(bytes.len(), 72)` then fires — a panic instead of the four Dummy
descriptors bytes 54..=125 should hold (for `1 ≤ k ≤ 4` the section is
produced as described). -/
theorem C3_empty_descriptor_list :
    vecEdidDescriptorIntoBytes [] = none :=
  rfl

/-- C4: encoding is not infallible on validly-constructed models. Every
field of `overflowDTD` is a value its smart constructor accepts
(`h_border ≤ 255`, `h_front_porch ≤ 1023`, ...), yet
`EdidDescriptorDetailedTiming::into_bytes` panics on it: the derived sync
offset `h_border + h_front_porch = 1278` fails the 10-bit `expect`. -/
theorem C4_valid_model_encode_fails :
    EdidDescriptorDetailedTiming.valid overflowDTD = true ∧
      EdidDescriptorDetailedTiming.intoBytes overflowDTD = none :=
  ⟨rfl, rfl⟩

/-- C5: in the R4 Display Range Limits CVT payload, the supported-aspect
bitmap byte `|= 1 << (7 - ratio)` sets bit 7 exactly for 4:3, bit 6 for
16:9, bit 5 for 16:10, bit 4 for 5:4 and bit 3 for 15:9. -/
theorem C5_cvt_aspect_bitmap (l : List EdidR4DisplayRangeVideoTimingsAspect) :
    ((cvtSupportedAspectsByte l).testBit 7 = true ↔ .aspect4x3 ∈ l) ∧
      ((cvtSupportedAspectsByte l).testBit 6 = true ↔ .aspect16x9 ∈ l) ∧
      ((cvtSupportedAspectsByte l).testBit 5 = true ↔ .aspect16x10 ∈ l) ∧
      ((cvtSupportedAspectsByte l).testBit 4 = true ↔ .aspect5x4 ∈ l) ∧
      ((cvtSupportedAspectsByte l).testBit 3 = true ↔ .aspect15x9 ∈ l) :=
  ⟨cvtSupportedAspectsByte_testBit .aspect4x3 l,
   cvtSupportedAspectsByte_testBit .aspect16x9 l,
   cvtSupportedAspectsByte_testBit .aspect16x10 l,
   cvtSupportedAspectsByte_testBit .aspect5x4 l,
   cvtSupportedAspectsByte_testBit .aspect15x9 l⟩

/-- C6 (amended): bit 5 of byte 35 of an encoded `EdidRelease3` base block
is set exactly when the model's established-timings list contains
640x480@60Hz. The builder's default list contains it, but a caller-supplied
list replaces the default rather than being merged with it, so the bit is
not set for every model. -/
theorem C6_established_timing_bit (e : EdidRelease3) (out : List Nat) (b : Nat)
    (h : e.intoBytes = some out) (hb : out[35]? = some b) :
    (b.testBit 5 = true ↔ EdidEstablishedTiming.et640x480x60 ∈ e.establishedTimings) ∧
      EdidEstablishedTiming.et640x480x60 ∈ edidRelease3EstablishedTimingsDefault := by
  refine ⟨?_, by simp [edidRelease3EstablishedTimingsDefault]⟩
  unfold EdidRelease3.intoBytes at h
  rcases Edid.intoBytes_structure_edid _ out h with ⟨base, exts, hbase, _, hout, hblen, _, _⟩
  have h35 : out[35]? = base[35]? := by
    rw [hout, List.getElem?_append_left (by simp [hblen]),
      List.getElem?_append_left (by rw [hblen]; norm_num)]
  rw [h35, (Edid.baseContent_facts _ base hbase).2.2] at hb
  have hbv : b =
      ((e.toEdid.establishedTimings).foldl EdidEstablishedTiming.orBit (0, 0, 0)).1 := by
    simpa using hb.symm
  rw [hbv, etFold_fst_testBit5]
  simp [EdidRelease3.toEdid]

/-- C6 witness: with the builder's default established-timings list, byte 35
is `0x20` and its bit 5 is set. -/
theorem C6_established_timing_bit_witness :
    ((32 : Nat).testBit 5 = true ↔
        EdidEstablishedTiming.et640x480x60 ∈ r3Default.establishedTimings) ∧
      EdidEstablishedTiming.et640x480x60 ∈ edidRelease3EstablishedTimingsDefault :=
  C6_established_timing_bit r3Default r3DefaultOut 32 rfl rfl

/-- C6 counterexample: the validly-constructed model `r3Custom`, whose
builder was handed `[800x600@60]`, encodes byte 35 to `0x01`: bit 5 (the
640x480@60Hz bit) is clear, contradicting the claim that every encoded
Release 3 base block has it set. -/
theorem C6_counterexample :
    EdidRelease3.valid r3Custom = true ∧
      EdidRelease3.intoBytes r3Custom = some r3CustomOut ∧
      r3CustomOut[35]? = some 1 ∧ Nat.testBit 1 5 = false :=
  ⟨rfl, rfl, rfl, rfl⟩

/-- C7: in every successfully encoded 18-byte detailed timing, byte 8 is
the low 8 bits of the sync offset `h_border + h_front_porch`, and bits 7:6
of byte 11 (its value divided by 64) are bits 9:8 of that same sum. -/
theorem C7_dtd_sync_offset (d : EdidDescriptorDetailedTiming) (bs : List Nat)
    (h : d.intoBytes = some bs) :
    bs[8]? = some ((d.horizontal.border + d.horizontal.frontPorch) % 256) ∧
      ∃ b11, bs[11]? = some b11 ∧
        b11 / 64 = (d.horizontal.border + d.horizontal.frontPorch) / 256 := by
  unfold EdidDescriptorDetailedTiming.intoBytes at h
  dsimp only at h
  split_ifs at h with h1 h2 h3 h4 h5
  cases h
  refine ⟨rfl,
    (d.horizontal.border + d.horizontal.frontPorch) / 256 % 4 * 64 +
      d.horizontal.syncPulse / 256 % 4 * 16 +
      (d.vertical.border + d.vertical.frontPorch) / 16 % 4 * 4 +
      d.vertical.syncPulse / 16 % 4, rfl, ?_⟩
  omega

/-- C7 witness: the concrete timing `syncOffsetDTD` with sync offset 302:
byte 8 is `302 % 256 = 46` and byte 11 divided by 64 is `302 / 256 = 1`. -/
theorem C7_dtd_sync_offset_witness :
    syncOffsetDTDBytes[8]? =
        some ((syncOffsetDTD.horizontal.border + syncOffsetDTD.horizontal.frontPorch) % 256) ∧
      ∃ b11, syncOffsetDTDBytes[11]? = some b11 ∧
        b11 / 64 =
          (syncOffsetDTD.horizontal.border + syncOffsetDTD.horizontal.frontPorch) / 256 :=
  C7_dtd_sync_offset syncOffsetDTD syncOffsetDTDBytes rfl

/-- C8: a string descriptor payload shorter than 13 bytes is the string's
ISO-8859-1 bytes, one `0x0A` terminator, and `0x20` padding up to 13
bytes. -/
theorem C8_string_descriptor (s : EdidDescriptorString) (h1 : s.chars.length < 13)
    (h2 : s.chars.all (fun c => c ≤ 0xff) = true) :
    EdidDescriptorString.intoBytes s =
      some (s.chars ++ 0x0a :: List.replicate (12 - s.chars.length) 0x20) := by
  unfold EdidDescriptorString.intoBytes
  rw [if_pos h2, if_pos h1]
  unfold listResize
  dsimp only
  by_cases hc : 13 ≤ (s.chars ++ [0x0a]).length
  · rw [if_pos hc]
    have hl : s.chars.length = 12 := by
      simp only [List.length_append, List.length_cons, List.length_nil] at hc
      omega
    rw [List.take_of_length_le (by simp [hl])]
    simp [hl]
  · rw [if_neg hc]
    have he : 13 - (s.chars ++ [0x0a]).length = 12 - s.chars.length := by
      simp only [List.length_append, List.length_cons, List.length_nil]
      omega
    rw [he]
    simp

/-- C8 witness: `ProductName("XYZ Monitor")` — the 13-byte payload, and the
full 18-byte descriptor `00 00 00 FC 00 58 59 5A 20 4D 6F 6E 69 74 6F 72
0A 20`. -/
theorem C8_string_descriptor_witness :
    EdidDescriptorString.intoBytes xyzMonitor =
        some [0x58, 0x59, 0x5a, 0x20, 0x4d, 0x6f, 0x6e, 0x69, 0x74, 0x6f, 0x72, 0x0a, 0x20] ∧
      EdidR3Descriptor.intoBytes (.productName xyzMonitor) =
        some [0x00, 0x00, 0x00, 0xfc, 0x00, 0x58, 0x59, 0x5a, 0x20, 0x4d, 0x6f, 0x6e, 0x69,
          0x74, 0x6f, 0x72, 0x0a, 0x20] :=
  ⟨C8_string_descriptor xyzMonitor (by decide) (by decide), rfl⟩

/-- C9: the standard-timings section reads only the first 8 entries —
appending further entries changes nothing (no error, no panic) — and on
success the 16-byte section holds, for each slot `i < 8`, the entry's two
bytes, or `0x01 0x01` when no entry exists. -/
theorem C9_standard_timings (l : List EdidStandardTiming) :
    vecEdidStandardTimingIntoBytes l = vecEdidStandardTimingIntoBytes (l.take 8) ∧
      ∀ bs, vecEdidStandardTimingIntoBytes l = some bs →
        bs.length = 16 ∧
        ∀ i < 8,
          (bs.drop (2 * i)).take 2 =
            match l[i]? with
            | some t => t.slotValue
            | Option.none => [0x01, 0x01] := by
  constructor
  · unfold vecEdidStandardTimingIntoBytes
    congr 1
    apply encodeAll_congr
    intro i hi
    have hi8 : i < 8 := List.mem_range.mp hi
    unfold stdTimingSlot
    rw [List.getElem?_take_of_lt hi8]
  · intro bs hbs
    refine ⟨length_vecEdidStandardTimingIntoBytes l bs hbs, ?_⟩
    intro i hi
    unfold vecEdidStandardTimingIntoBytes at hbs
    cases hparts : encodeAll (stdTimingSlot l) (List.range 8) <;> rw [hparts] at hbs
    · cases hbs
    · rename_i parts
      simp only [Option.map_some', Option.some.injEq] at hbs
      have hplen : parts.length = 8 := by
        simpa using encodeAll_length_eq _ _ _ hparts
      have hall : ∀ p ∈ parts, p.length = 2 := by
        intro p hp
        rcases encodeAll_mem _ _ _ hparts p hp with ⟨x, _, hfx⟩
        exact stdTimingSlot_length l x p hfx
      have hchunk := @flatten_chunk 2 parts hall i (by omega)
      rcases encodeAll_get _ _ _ hparts i i (by rw [List.getElem?_range hi]) with
        ⟨p, hpi, hfp⟩
      have hgd : parts.getD i [] = p := by
        simp [List.getD_eq_getElem?_getD, hpi]
      rw [← hbs, hchunk, hgd]
      unfold stdTimingSlot at hfp
      cases hl : l[i]? with
      | none =>
        simp only [hl, Option.some.injEq] at hfp
        simp [hfp.symm]
      | some t =>
        simp only [hl] at hfp
        unfold EdidStandardTiming.slotBytes at hfp
        split at hfp
        · simp only [Option.some.injEq] at hfp
          simp [hfp.symm]
        · cases hfp

/-- C9 witness: nine identical 640x480@60 timings — the ninth is ignored
(the section equals the one of the first eight) and the section is 16
bytes. -/
theorem C9_standard_timings_witness :
    vecEdidStandardTimingIntoBytes nineTimings =
        vecEdidStandardTimingIntoBytes (nineTimings.take 8) ∧
      nineTimingsBytes.length = 16 :=
  ⟨(C9_standard_timings nineTimings).1,
   ((C9_standard_timings nineTimings).2 nineTimingsBytes rfl).1⟩

/-- C10 (amended): provided the DTD-offset byte fits a `u8` (otherwise the
encoder panics before reaching the resize — see the counterexample), a
CTA-861 Revision 3 extension whose raw content reaches 127 bytes is
silently truncated at byte 127 by `Vec::resize(127, 0)` and still returns
a 128-byte block: the truncated content plus its checksum. -/
theorem C10_extension_truncation (x : EdidExtensionCTA861Revision3) (raw : List Nat)
    (h : x.rawContent = some raw) (hlen : 127 ≤ raw.length) :
    x.intoBytes = some (raw.take 127 ++ [checksum (raw.take 127)]) ∧
      (raw.take 127 ++ [checksum (raw.take 127)]).length = 128 := by
  constructor
  · unfold EdidExtensionCTA861Revision3.intoBytes EdidExtensionCTA861Revision3.content
    rw [h]
    simp only [Option.map_some']
    unfold listResize
    rw [if_pos hlen]
  · simp only [List.length_append, List.length_take, List.length_cons, List.length_nil]
    omega

/-- C10 witness: the extension `sevenTimings` has 130 raw content bytes
(`4 + 7 * 18`); its encoding truncates them to 127 and appends the
checksum, a 128-byte block, with no error. -/
theorem C10_extension_truncation_witness :
    EdidExtensionCTA861Revision3.intoBytes sevenTimings =
        some (sevenTimingsRaw.take 127 ++ [checksum (sevenTimingsRaw.take 127)]) ∧
      (sevenTimingsRaw.take 127 ++ [checksum (sevenTimingsRaw.take 127)]).length = 128 :=
  C10_extension_truncation sevenTimings sevenTimingsRaw rfl (by decide)

/-- C10 counterexample: the validly-constructed extension `bigAudio`
carries a 253-byte audio data block, far beyond the 126 bytes left after
the 4-byte header, yet encoding does not return a truncated 128-byte
block: the DTD-offset `4 + 253 = 257` fails its `u8` conversion and the
encoder panics (`none`) before the truncating resize. -/
theorem C10_counterexample :
    EdidExtensionCTA861Revision3.valid bigAudio = true ∧
      bigAudio.dataBlocks.foldl (fun acc b => acc + b.size) 4 = 257 ∧
      EdidExtensionCTA861Revision3.intoBytes bigAudio = none :=
  ⟨rfl, rfl, rfl⟩

end Redid
